import Mathlib

/-!
# httpx: routing, middleware and the SPA fallback interceptor

A shallow embedding of `httpx/routes.go` and `httpx/spa.go`.

* A handler body is a program (`Prog`) whose nodes are the calls it makes on its
  response writer `w` and on its environment (file system, `slog`).  Running a
  program against a response writer (`Prog.run`, `Prog.trace`) gives the final state of
  the writer and the ordered list of calls that were made.
* `http.ResponseWriter` is an interface of the standard library: it is a parameter
  (`ResponseWriter σ`, a table of methods over a state `σ`).
* `hookedResponseWriter` is a writer implemented on top of the writer it embeds: its
  methods are programs over the embedded writer that return the updated receiver.
-/

namespace httpx

/-! ## Data model -/

/-- Go `[]byte`. -/
abbrev Bytes := List UInt8

/-- Go `error` values (the nil error is `none` in an `Option Error`). -/
abbrev Error := String

/-- Conversion `[]byte(s)`: the UTF-8 encoding of the string. -/
def bytes (s : String) : Bytes := s.toList.flatMap String.utf8EncodeChar

/-- Constant `http.StatusNotFound`. -/
def StatusNotFound : Int := 404

/-- Constant `http.StatusOK`. -/
def StatusOK : Int := 200

/-- Type `http.Header`: the values stored under each (canonical) key; a key that is
absent has no values. -/
abbrev Header := String → List String

/-- Method `Header.Get`: the first value stored under the key, or the empty string.
The keys this package uses are already in canonical form. -/
def Header.Get (h : Header) (key : String) : String :=
  match h key with
  | [] => ""
  | v :: _ => v

/-- Method `Header.Set`: replaces the values stored under the key by the single value. -/
def Header.Set (h : Header) (key value : String) : Header :=
  fun k => if k = key then [value] else h k

/-- The part of `*http.Request` handlers of this package read. -/
structure Request where
  Method : String
  Path : String
  Header : Header

/-- Result of `File.Stat`: the part of `fs.FileInfo` that is used. -/
structure FileInfo where
  Name : String
  ModTime : Int

/-- An opened `http.File`. -/
structure File where
  Stat : Except Error FileInfo
  Data : Bytes

/-- Interface `http.FileSystem`. -/
structure FileSystem where
  Open : String → Except Error File

/-- Severity of a `slog` record. -/
inductive Level where
  | Debug
  | Error
  deriving DecidableEq, Repr

/-- One record handed to `slog`: level, message and attributes. -/
structure LogRecord where
  level : Level
  msg : String
  attrs : List (String × String)
  deriving DecidableEq, Repr

/-- What `Write` returns: `(int, error)`. -/
abbrev WriteResult := Int × Option Error

/-- A handler body: the calls it makes, in order, each `Write`, `Open` and `Stat`
continuing with the value the call returned. -/
inductive Prog (α : Type) where
  | ret (a : α)
  | WriteHeader (status : Int) (next : Prog α)
  | Write (p : Bytes) (next : WriteResult → Prog α)
  | HeaderSet (key value : String) (next : Prog α)
  | Open (files : FileSystem) (name : String) (next : Except Error File → Prog α)
  | Stat (f : File) (next : Except Error FileInfo → Prog α)
  | Log (record : LogRecord) (next : Prog α)

/-- Sequencing: run `x`, then `f` on its result. -/
def Prog.bind {α β : Type} (x : Prog α) (f : α → Prog β) : Prog β :=
  match x with
  | .ret a => f a
  | .WriteHeader status next => .WriteHeader status (next.bind f)
  | .Write p next => .Write p (fun res => (next res).bind f)
  | .HeaderSet key value next => .HeaderSet key value (next.bind f)
  | .Open files name next => .Open files name (fun res => (next res).bind f)
  | .Stat file next => .Stat file (fun res => (next res).bind f)
  | .Log record next => .Log record (next.bind f)

/-- Interface `http.ResponseWriter` as a table of methods over the state `σ` of the sink.
`HeaderSet key value` is `w.Header().Set(key, value)`. -/
structure ResponseWriter (σ : Type) where
  HeaderSet : String → String → σ → σ
  Write : Bytes → σ → WriteResult × σ
  WriteHeader : Int → σ → σ

/-- One call made by a running handler, with what `Write` returned. -/
inductive Op where
  | WriteHeader (status : Int)
  | Write (p : Bytes) (res : WriteResult)
  | HeaderSet (key value : String)
  | Open (name : String)
  | Stat
  | Log (record : LogRecord)
  deriving DecidableEq

/-- Result and final sink state of running a program against the writer `w`. -/
def Prog.run {α σ : Type} (w : ResponseWriter σ) : Prog α → σ → α × σ
  | .ret a, s => (a, s)
  | .WriteHeader status next, s => next.run w (w.WriteHeader status s)
  | .Write p next, s => (next (w.Write p s).1).run w (w.Write p s).2
  | .HeaderSet key value next, s => next.run w (w.HeaderSet key value s)
  | .Open files name next, s => (next (files.Open name)).run w s
  | .Stat file next, s => (next file.Stat).run w s
  | .Log _ next, s => next.run w s

/-- The calls a program makes, in order, when it runs against the writer `w`. -/
def Prog.trace {α σ : Type} (w : ResponseWriter σ) : Prog α → σ → List Op
  | .ret _, _ => []
  | .WriteHeader status next, s => .WriteHeader status :: next.trace w (w.WriteHeader status s)
  | .Write p next, s => .Write p (w.Write p s).1 :: (next (w.Write p s).1).trace w (w.Write p s).2
  | .HeaderSet key value next, s => .HeaderSet key value :: next.trace w (w.HeaderSet key value s)
  | .Open files name next, s => .Open name :: (next (files.Open name)).trace w s
  | .Stat file next, s => .Stat :: (next file.Stat).trace w s
  | .Log record next, s => .Log record :: next.trace w s

/-- Type `http.Handler` (and `http.HandlerFunc`): the body run for a request. -/
abbrev Handler := Request → Prog Unit

/-! ## routes.go -/

/-- Type `Middleware`. -/
abbrev Middleware := Handler → Handler

/-- Struct `Route`. -/
structure Route where
  Pattern : String
  Handler : Handler
  Use : List Middleware

/-- The loop of `Chain`: `k` is `i + 1`, so the loop ends when `k` is `0` (`i < 0`). -/
def Chain.loop (mws : List Middleware) : (k : Nat) → k ≤ mws.length → Handler → Handler
  | 0, _, h => h
  | k + 1, hk, h => Chain.loop mws k (Nat.le_of_succ_le hk) (mws[k] h)

/-- Function `Chain`: `for i := len(mws) - 1; i >= 0; i-- { h = mws[i](h) }; return h`. -/
def Chain (h : Handler) (mws : List Middleware) : Handler :=
  Chain.loop mws mws.length (Nat.le_refl _) h

/-- Interface `Routable`, as its single method `Routes()`.  `S` is the program state a
function-backed Routable may read or change between calls; a Routable whose `Routes()`
is pure returns it unchanged.  A nil interface value is `none` in an `Option`. -/
abbrev Routable (S : Type) := S → List Route × S

/-- Type `RoutableFunc`: a function value, or nil (`none`). -/
abbrev RoutableFunc (S : Type) := Option (S → List Route × S)

/-- Method `RoutableFunc.Routes`. -/
def RoutableFunc.Routes {S : Type} (f : RoutableFunc S) : Routable S :=
  fun s =>
    match f with
    | none => ([], s)
    | some f => f s

/-- Type `staticRoutes`. -/
abbrev staticRoutes := List Route

/-- Method `staticRoutes.Routes`. -/
def staticRoutes.Routes {S : Type} (s : staticRoutes) : Routable S :=
  fun st => (s, st)

/-- Function `Routes`. -/
def Routes {S : Type} (rs : List Route) : Routable S :=
  staticRoutes.Routes rs

/-- Struct `routeGroup`. -/
structure routeGroup (S : Type) where
  base : Option (Routable S)
  use : List Middleware

/-- Method `routeGroup.Routes`.  The `for ... range routes` loop is the fold: each step
builds `use` from `g.use` and `rt.Use`, stores it in the copy `rt` and appends to `out`. -/
def routeGroup.Routes {S : Type} (g : routeGroup S) : Routable S :=
  fun s =>
    match g.base with
    | none => ([], s)
    | some base =>
      let (routes, s) := base s
      if routes.length = 0 ∨ g.use.length = 0 then
        (routes, s)
      else
        let out := routes.foldl
          (fun (out : List Route) (rt : Route) =>
            let use : List Middleware := []
            let use := use ++ g.use
            let use := use ++ rt.Use
            let rt := { rt with Use := use }
            out ++ [rt])
          []
        (out, s)

/-- Function `With`. -/
def With {S : Type} (use : List Middleware) : Option (Routable S) → Routable S :=
  fun r => routeGroup.Routes { base := r, use := use }

/-- Function `Use`. -/
def Use {S : Type} (r : Option (Routable S)) (use : List Middleware) : Routable S :=
  routeGroup.Routes { base := r, use := use }

/-- The multiplexer `*http.ServeMux`, as the ordered log of the binds it has accepted. -/
abbrev ServeMux := List (String × Handler)

/-- Method `ServeMux.Handle` of the standard library: it panics when it refuses the
pattern (an empty or malformed pattern, a pattern already registered or in conflict with
a registered one) and registers the bind otherwise.  `refusal` is the library's rule, a
parameter: from the patterns registered so far and the new pattern, the panic value, or
`none` when the bind is accepted. -/
def ServeMux.Handle (refusal : List String → String → Option Error) (mux : ServeMux)
    (pattern : String) (handler : Handler) : Except Error ServeMux :=
  match refusal (mux.map Prod.fst) pattern with
  | some e => .error e
  | none => .ok (mux ++ [(pattern, handler)])

/-- What registration acts on: the multiplexer, the `slog` output and the program state. -/
structure Startup (S : Type) where
  mux : ServeMux
  slog : List LogRecord
  state : S

/-- The inner loop of `Register`, `for _, rt := range r.Routes()`.  A panic of `Handle`
ends it: the result is the state reached and the panic value, `none` when the loop ran
to its end. -/
def Register.routes {S : Type} (refusal : List String → String → Option Error) :
    List Route → Startup S → Startup S × Option Error
  | [], st => (st, none)
  | rt :: rts, st =>
    let st := { st with slog := st.slog ++
      [LogRecord.mk .Debug "registering route" [("pattern", rt.Pattern)]] }
    let h := Chain rt.Handler rt.Use
    match st.mux.Handle refusal rt.Pattern h with
    | .error e => (st, some e)
    | .ok mux => Register.routes refusal rts { st with mux := mux }

/-- Function `Register`: the outer loop over `rs`, the inner loop over `r.Routes()`.
`Register` has no `recover`, so a panic of `Handle` ends it: the result is the state
reached and the panic value, `none` when `Register` returned.  Every element of `rs` is
a Routable value: a nil interface among them has no `Routes()` to call. -/
def Register {S : Type} (refusal : List String → String → Option Error) :
    List (Routable S) → Startup S → Startup S × Option Error
  | [], st => (st, none)
  | r :: rs, st =>
    let (routes, s) := r st.state
    match Register.routes refusal routes { st with state := s } with
    | (st, some e) => (st, some e)
    | (st, none) => Register refusal rs st

/-! ## spa.go -/

/-- Struct `hookedResponseWriter`.  The embedded `http.ResponseWriter` is the writer the
programs returned by its methods are addressed to. -/
structure hookedResponseWriter where
  got404 : Bool
  deriving DecidableEq, Repr

/-- Method `hookedResponseWriter.WriteHeader`; returns the updated receiver. -/
def hookedResponseWriter.WriteHeader (hrw : hookedResponseWriter) (status : Int) :
    Prog hookedResponseWriter :=
  if status = StatusNotFound then
    .ret { hrw with got404 := true }
  else
    .WriteHeader status (.ret hrw)

/-- Method `hookedResponseWriter.Write`; returns what the caller gets and the receiver. -/
def hookedResponseWriter.Write (hrw : hookedResponseWriter) (p : Bytes) :
    Prog (WriteResult × hookedResponseWriter) :=
  if hrw.got404 then
    .ret (((p.length : Int), none), hrw)
  else
    .Write p (fun res => .ret (res, hrw))

/-- Method `Header` promoted from the embedded writer: `Header().Set` reaches the
embedded writer directly. -/
def hookedResponseWriter.HeaderSet (hrw : hookedResponseWriter) (key value : String) :
    Prog hookedResponseWriter :=
  .HeaderSet key value (.ret hrw)

/-- Running a handler body with the hooked writer as its `w`: every call on `w` becomes
the corresponding method of `hookedResponseWriter`; calls on the environment are
unchanged.  The result carries the receiver as it is when the body returns. -/
def Prog.onHooked {α : Type} : Prog α → hookedResponseWriter → Prog (α × hookedResponseWriter)
  | .ret a, hrw => .ret (a, hrw)
  | .WriteHeader status next, hrw =>
      (hrw.WriteHeader status).bind (fun hrw => next.onHooked hrw)
  | .Write p next, hrw =>
      (hrw.Write p).bind (fun res => (next res.1).onHooked res.2)
  | .HeaderSet key value next, hrw =>
      (hrw.HeaderSet key value).bind (fun hrw => next.onHooked hrw)
  | .Open files name next, hrw => .Open files name (fun res => (next res).onHooked hrw)
  | .Stat file next, hrw => .Stat file (fun res => (next res).onHooked hrw)
  | .Log record next, hrw => .Log record (next.onHooked hrw)

/-- Function `Intercept404`. -/
def Intercept404 (handler on404 : Handler) : Handler :=
  fun r =>
    let hookedWriter : hookedResponseWriter := { got404 := false }
    ((handler r).onHooked hookedWriter).bind fun res =>
      let hookedWriter := res.2
      if hookedWriter.got404 then
        on404 r
      else
        .ret ()

/-- The hooked writer seen as a response writer in its own right, over the state of the
writer `w` it embeds together with its own fields: each method is the method of
`hookedResponseWriter` run against `w`. -/
def hooked {σ : Type} (w : ResponseWriter σ) : ResponseWriter (σ × hookedResponseWriter) where
  HeaderSet key value := fun st =>
    let r := (st.2.HeaderSet key value).run w st.1
    (r.2, r.1)
  Write p := fun st =>
    let r := (st.2.Write p).run w st.1
    (r.1.1, (r.2, r.1.2))
  WriteHeader status := fun st =>
    let r := (st.2.WriteHeader status).run w st.1
    (r.2, r.1)

/-- Function `strings.Contains` of the standard library: `substr` occurs within `s`. -/
def strings.Contains (s substr : String) : Bool :=
  s.toList.tails.any (fun t => substr.toList.isPrefixOf t)

/-- The two identical branches of `ServeFileContents` taken when `Open` or `Stat` fails. -/
def ServeFileContents.missing (file : String) : Prog Unit :=
  .WriteHeader StatusNotFound <|
  .Write (bytes (file ++ " not found")) fun res =>
    match res.2 with
    | some err =>
        .Log (LogRecord.mk .Error "error writing missing file response"
          [("file", file), ("err", err)]) (.ret ())
    | none => .ret ()

/-- Function `ServeFileContents`.  `ServeContent` is `http.ServeContent` of the standard
library, a parameter: the calls it makes on `w` for a request, name, modification time
and content. -/
def ServeFileContents (ServeContent : Request → String → Int → File → Prog Unit)
    (file : String) (files : FileSystem) : Handler :=
  fun r =>
    if !strings.Contains (r.Header.Get "Accept") "text/html" then
      .WriteHeader StatusNotFound <|
      .Write (bytes "404 not found") fun res =>
        match res.2 with
        | some err =>
            .Log (LogRecord.mk .Error "error writing 404 response" [("err", err)]) (.ret ())
        | none => .ret ()
    else
      .Open files file fun res =>
        match res with
        | .error _ => ServeFileContents.missing file
        | .ok index =>
          .Stat index fun res =>
            match res with
            | .error _ => ServeFileContents.missing file
            | .ok fi =>
              .HeaderSet "Content-Type" "text/html; charset=utf-8" <|
              ServeContent r fi.Name fi.ModTime index

/-- Type `url.URL`: the fields a reverse proxy reads from its target. -/
structure URL where
  Scheme : String
  Host : String
  Path : String
  RawQuery : String
  deriving DecidableEq, Repr

/-- Type `http.Response`: the part the response hook of `DevProxy` reads and writes. -/
structure Response where
  StatusCode : Int
  Header : Header

/-- Type `httputil.ReverseProxy`: the target its `Director` closure captured (a
`*url.URL`, nil is `none`) and the `ModifyResponse` hook (nil is `none`). -/
structure ReverseProxy where
  target : Option URL
  ModifyResponse : Option (Response → Response × Option Error)

/-- Function `httputil.NewSingleHostReverseProxy` of the standard library (the package
imports `log/slog`, so Go 1.21 or later): it stores the target in the `Director` closure
without reading it; the target is read when a request is proxied. -/
def NewSingleHostReverseProxy (target : Option URL) : ReverseProxy :=
  { target := target, ModifyResponse := none }

/-- The function literal `DevProxy` assigns to `proxy.ModifyResponse`; `resp` is changed
in place, so the response after the call is returned with the error. -/
def DevProxy.ModifyResponse (resp : Response) : Response × Option Error :=
  if resp.Header.Get "Upgrade" = "websocket" then
    ({ resp with Header := resp.Header.Set "Connection" "upgrade" }, none)
  else
    (resp, none)

/-- Function `DevProxy`.  `urlParse` is `url.Parse` of the standard library, a parameter:
the `(*url.URL, error)` pair it returns for an address. -/
def DevProxy (urlParse : String → Option URL × Option Error) (frontendAddress : String) :
    ReverseProxy :=
  let proxyURL := (urlParse frontendAddress).1
  let proxy := NewSingleHostReverseProxy proxyURL
  { proxy with ModifyResponse := some DevProxy.ModifyResponse }

/-! ## The recorder used by the tests -/

/-- Type `httptest.ResponseRecorder` of the standard library, the sink of the tests in
`spa_test.go`: the status code (200 until one is written), the headers, the body, and
whether the status line has been written. -/
structure ResponseRecorder where
  Code : Int
  HeaderMap : Header
  Body : Bytes
  wroteHeader : Bool

/-- Function `httptest.NewRecorder`. -/
def NewRecorder : ResponseRecorder :=
  { Code := 200, HeaderMap := fun _ => [], Body := [], wroteHeader := false }

/-- Method `ResponseRecorder.WriteHeader`: the first status written stays. -/
def ResponseRecorder.WriteHeader (code : Int) (rw : ResponseRecorder) : ResponseRecorder :=
  if rw.wroteHeader then rw else { rw with Code := code, wroteHeader := true }

/-- Method `ResponseRecorder.Write`: writes the implicit 200 status line if none was
written, appends to the body, and reports all of `p` written. -/
def ResponseRecorder.Write (p : Bytes) (rw : ResponseRecorder) :
    WriteResult × ResponseRecorder :=
  let rw := if rw.wroteHeader then rw else rw.WriteHeader 200
  (((p.length : Int), none), { rw with Body := rw.Body ++ p })

/-- The recorder as a response writer. -/
def recorder : ResponseWriter ResponseRecorder where
  HeaderSet key value := fun rw => { rw with HeaderMap := rw.HeaderMap.Set key value }
  Write := ResponseRecorder.Write
  WriteHeader := ResponseRecorder.WriteHeader

/-! ## Fixtures of the properties -/

/-- The record a logging middleware emits before it calls the handler it wraps. -/
def preRecord (label : String) : LogRecord :=
  LogRecord.mk .Debug ("pre " ++ label) []

/-- The record a logging middleware emits after the handler it wraps has returned. -/
def postRecord (label : String) : LogRecord :=
  LogRecord.mk .Debug ("post " ++ label) []

/-- A middleware that logs `pre label`, calls the handler it wraps, then logs
`post label`. -/
def loggingMiddleware (label : String) : Middleware :=
  fun next r =>
    .Log (preRecord label) ((next r).bind fun _ => .Log (postRecord label) (.ret ()))

/-- The call is a body `Write`. -/
def Op.isWrite : Op → Bool
  | .Write _ _ => true
  | _ => false

/-- The call is a status-setting call, `WriteHeader` with any status. -/
def Op.isWriteHeader : Op → Bool
  | .WriteHeader _ => true
  | _ => false

/-- The call is `WriteHeader(http.StatusNotFound)`. -/
def Op.is404 : Op → Bool
  | .WriteHeader status => decide (status = StatusNotFound)
  | _ => false

/-- The primary of `TestIntercept404CallsFallback`: status 404, then the body "missing". -/
def testPrimary404 : Handler :=
  fun _ => .WriteHeader StatusNotFound (.Write (bytes "missing") fun _ => .ret ())

/-- The fallback of `TestIntercept404CallsFallback`: the body "index". -/
def testFallbackIndex : Handler :=
  fun _ => .Write (bytes "index") fun _ => .ret ()

/-- The primary of `TestIntercept404SkipsFallbackOnSuccess`: the body "ok". -/
def testPrimaryOk : Handler :=
  fun _ => .Write (bytes "ok") fun _ => .ret ()

/-- The fallback of `TestIntercept404SkipsFallbackOnSuccess`, its flag as a log record. -/
def testFallbackFlag : Handler :=
  fun _ => .Log (LogRecord.mk .Debug "fallbackCalled" []) (.ret ())

/-- The request of the interceptor tests: `GET /` without headers. -/
def testRequest : Request :=
  { Method := "GET", Path := "/", Header := fun _ => [] }

/-- A primary that writes body bytes first and sets status 404 afterwards, then writes
again. -/
def lateNotFound : Handler :=
  fun _ => .Write (bytes "x") fun _ => .WriteHeader StatusNotFound (.Write (bytes "y") fun _ => .ret ())

/-- Successive `Handle` calls with the given pairs, in order, up to the first that
panics: the binds accepted and the panic value, `none` when every call returned. -/
def ServeMux.HandleAll (refusal : List String → String → Option Error) :
    ServeMux → List (String × Handler) → ServeMux × Option Error
  | mux, [] => (mux, none)
  | mux, (pattern, handler) :: rest =>
    match mux.Handle refusal pattern handler with
    | .error e => (mux, some e)
    | .ok mux => ServeMux.HandleAll refusal mux rest

/-- A part of the rule of `http.ServeMux`: the empty pattern and a pattern already
registered are refused.  The library refuses these two, and malformed or conflicting
patterns as well; on the patterns `GET /a` and `GET /b` of the examples the library's
rule and this one agree. -/
def refuseDuplicates : List String → String → Option Error :=
  fun registered pattern =>
    if pattern = "" then some "http: invalid pattern"
    else if pattern ∈ registered then some "pattern conflicts with a registered pattern"
    else none

/-- The route `GET /a` of the registrar example. -/
def routeA : Route := { Pattern := "GET /a", Handler := testPrimaryOk, Use := [] }

/-- The route `GET /b` of the registrar example. -/
def routeB : Route := { Pattern := "GET /b", Handler := testFallbackIndex, Use := [] }

/-- The results of the `Routes()` calls `Register` makes when no bind panics, one per
Routable, in the order of `rs`; the state left by one call is the state the next call
starts from. -/
def routesResults {S : Type} : List (Routable S) → S → List (List Route)
  | [], _ => []
  | r :: rs, s => (r s).1 :: routesResults rs (r s).2

/-- The program state after the `Routes()` calls `Register` makes when no bind panics. -/
def routesState {S : Type} : List (Routable S) → S → S
  | [], s => s
  | r :: rs, s => routesState rs (r s).2

/-- The file system of the `ServeFileContents` tests: `index.html` only. -/
def testFiles : FileSystem :=
  { Open := fun name =>
      if name = "index.html" then
        .ok { Stat := .ok { Name := "index.html", ModTime := 0 }, Data := bytes "<html>ok</html>" }
      else
        .error "file does not exist" }

/-- The request of `TestServeFileContentsRejectsNonHTML`: `Accept: application/json`. -/
def testRequestJSON : Request :=
  { Method := "GET", Path := "/",
    Header := fun k => if k = "Accept" then ["application/json"] else [] }

/-- A stand-in for `http.ServeContent` on a plain `GET`: the content as the body. -/
def plainServeContent : Request → String → Int → File → Prog Unit :=
  fun _ _ _ content => .Write content.Data fun _ => .ret ()

/-- The request of `TestServeFileContentsHTML`: `Accept: text/html`. -/
def testRequestHTML : Request :=
  { Method := "GET", Path := "/",
    Header := fun k => if k = "Accept" then ["text/html"] else [] }

/-- A file system in which every `Open` fails. -/
def emptyFiles : FileSystem :=
  { Open := fun _ => .error "file does not exist" }

/-- A file system whose `index.html` opens but cannot be inspected with `Stat`. -/
def brokenStatFiles : FileSystem :=
  { Open := fun _ => .ok { Stat := .error "stat failed", Data := [] } }

/-- A stand-in for `url.Parse`: it accepts the address of the development server and
rejects every other string with a nil URL and an error. -/
def stubParse : String → Option URL × Option Error :=
  fun address =>
    if address = "http://localhost:5173" then
      (some { Scheme := "http", Host := "localhost:5173", Path := "", RawQuery := "" }, none)
    else
      (none, some "parse error")

/-- A function-backed Routable over a call counter: the n-th call returns n routes. -/
def countingRoutes : Nat → List Route × Nat :=
  fun n => (List.replicate n { Pattern := "GET /", Handler := testPrimaryOk, Use := [] }, n + 1)

/-- An upstream response that asks for a websocket upgrade. -/
def upgradeResponse : Response :=
  { StatusCode := 101, Header := fun k => if k = "Upgrade" then ["websocket"] else [] }

/-! ## routes.go with slices in memory

The definitions above treat `[]Route` and `[]Middleware` as values.  Whether
`routeGroup.Routes` changes a slice it shares with its caller is a question about backing
arrays, so the method is embedded a second time over an explicit memory of backing
arrays, with `make` and `append` as the Go specification gives them. -/

/-- A Go slice value: the address of its backing array, the offset of its first element
in that array, its length and its capacity.  The nil slice has length and capacity 0. -/
structure Slice where
  ptr : Nat
  off : Nat
  len : Nat
  cap : Nat
  deriving DecidableEq, Repr

/-- The nil slice. -/
def Slice.nil : Slice := { ptr := 0, off := 0, len := 0, cap := 0 }

/-- A `Route` value as it lies in a backing array: `Handler` may be nil (`none`), `Use` is
a slice value. -/
structure RouteCell where
  Pattern : String
  Handler : Option Handler
  Use : Slice

/-- The zero value of `Route`. -/
def RouteCell.zero : RouteCell := { Pattern := "", Handler := none, Use := Slice.nil }

/-- The backing arrays of `[]Middleware` slices (a nil function is `none`) and of `[]Route`
slices, by address; the addresses below `next` are allocated. -/
structure Memory where
  mws : Nat → List (Option Middleware)
  routes : Nat → List RouteCell
  next : Nat

/-- The elements of a `[]Middleware` slice. -/
def Memory.readMws (m : Memory) (s : Slice) : List (Option Middleware) :=
  ((m.mws s.ptr).drop s.off).take s.len

/-- The elements of a `[]Route` slice. -/
def Memory.readRoutes (m : Memory) (s : Slice) : List RouteCell :=
  ((m.routes s.ptr).drop s.off).take s.len

/-- The routes of a `[]Route` slice as values: pattern, handler, and the elements of the
route's own middleware slice. -/
def Memory.readDeep (m : Memory) (s : Slice) :
    List (String × Option Handler × List (Option Middleware)) :=
  (m.readRoutes s).map (fun c => (c.Pattern, c.Handler, m.readMws c.Use))

/-- Overwriting the cells of an array from index `i` on with `xs`. -/
def writeAt {α : Type} (arr : List α) (i : Nat) (xs : List α) : List α :=
  arr.take i ++ xs ++ arr.drop (i + xs.length)

/-- Builtin `make([]Middleware, 0, n)`: a new array of `n` zero values. -/
def makeMws (n : Nat) (m : Memory) : Slice × Memory :=
  ({ ptr := m.next, off := 0, len := 0, cap := n },
   { m with
     mws := fun a => if a = m.next then List.replicate n none else m.mws a
     next := m.next + 1 })

/-- Builtin `make([]Route, 0, n)`. -/
def makeRoutes (n : Nat) (m : Memory) : Slice × Memory :=
  ({ ptr := m.next, off := 0, len := 0, cap := n },
   { m with
     routes := fun a => if a = m.next then List.replicate n RouteCell.zero else m.routes a
     next := m.next + 1 })

/-- Builtin `append(s, xs...)` on `[]Middleware`: when the capacity suffices the elements
are written into the backing array of `s` behind its last element; otherwise a larger
array is allocated and receives the elements of `s` followed by `xs`. -/
def appendMws (s : Slice) (xs : List (Option Middleware)) (m : Memory) : Slice × Memory :=
  if s.len + xs.length ≤ s.cap then
    ({ s with len := s.len + xs.length },
     { m with
       mws := fun a => if a = s.ptr then writeAt (m.mws a) (s.off + s.len) xs else m.mws a })
  else
    let newcap := max (2 * s.cap) (s.len + xs.length)
    ({ ptr := m.next, off := 0, len := s.len + xs.length, cap := newcap },
     { m with
       mws := fun a =>
         if a = m.next then
           m.readMws s ++ xs ++ List.replicate (newcap - (s.len + xs.length)) none
         else m.mws a
       next := m.next + 1 })

/-- Builtin `append(s, xs...)` on `[]Route`. -/
def appendRoutes (s : Slice) (xs : List RouteCell) (m : Memory) : Slice × Memory :=
  if s.len + xs.length ≤ s.cap then
    ({ s with len := s.len + xs.length },
     { m with
       routes := fun a =>
         if a = s.ptr then writeAt (m.routes a) (s.off + s.len) xs else m.routes a })
  else
    let newcap := max (2 * s.cap) (s.len + xs.length)
    ({ ptr := m.next, off := 0, len := s.len + xs.length, cap := newcap },
     { m with
       routes := fun a =>
         if a = m.next then
           m.readRoutes s ++ xs ++ List.replicate (newcap - (s.len + xs.length)) RouteCell.zero
         else m.routes a
       next := m.next + 1 })

/-- Interface `Routable` over memory: `Routes()` returns a slice value and may allocate. -/
abbrev RoutableMem := Memory → Slice × Memory

/-- Method `staticRoutes.Routes` over memory: the receiver's own slice value. -/
def staticRoutes.RoutesMem (s : Slice) : RoutableMem :=
  fun m => (s, m)

/-- Struct `routeGroup` over memory. -/
structure routeGroupMem where
  base : Option RoutableMem
  use : Slice

/-- The body of the `for _, rt := range routes` loop of `routeGroup.Routes` at index `i`:
`rt` is a copy of `routes[i]`, read when the iteration starts. -/
def routeGroupMem.body (g : routeGroupMem) (routes : Slice) (st : Slice × Memory) (i : Nat) :
    Slice × Memory :=
  let out := st.1
  let m := st.2
  let rt := (m.routes routes.ptr).getD (routes.off + i) RouteCell.zero
  let r := makeMws (g.use.len + rt.Use.len) m
  let r := appendMws r.1 (r.2.readMws g.use) r.2
  let r := appendMws r.1 (r.2.readMws rt.Use) r.2
  let rt := { rt with Use := r.1 }
  appendRoutes out [rt] r.2

/-- Method `routeGroup.Routes` over memory. -/
def routeGroupMem.Routes (g : routeGroupMem) : RoutableMem :=
  fun m =>
    match g.base with
    | none => (Slice.nil, m)
    | some base =>
      let r := base m
      let routes := r.1
      if routes.len = 0 ∨ g.use.len = 0 then
        (routes, r.2)
      else
        (List.range routes.len).foldl (g.body routes) (makeRoutes routes.len r.2)

/-- Function `Use` over memory. -/
def UseMem (r : Option RoutableMem) (use : Slice) : RoutableMem :=
  routeGroupMem.Routes { base := r, use := use }

/-- A slice whose elements lie in allocated memory and within its backing array. -/
abbrev Slice.validMws (m : Memory) (s : Slice) : Prop :=
  s.ptr < m.next ∧ s.off + s.len ≤ (m.mws s.ptr).length

/-- A `[]Route` slice whose elements lie in allocated memory, within its backing array,
each with a valid `Use` slice. -/
abbrev Slice.validRoutes (m : Memory) (s : Slice) : Prop :=
  s.ptr < m.next ∧ s.off + s.len ≤ (m.routes s.ptr).length
    ∧ ∀ c ∈ m.readRoutes s, c.Use.validMws m

/-- A memory with the slices of a small example: at address 0 the middleware list of a
group, at address 1 the own list of a route, at address 2 the route. -/
def exampleMemory : Memory :=
  { mws := fun a =>
      if a = 0 then [some (loggingMiddleware "group")]
      else if a = 1 then [some (loggingMiddleware "own")]
      else []
    routes := fun a =>
      if a = 2 then
        [{ Pattern := "GET /", Handler := some testPrimaryOk,
           Use := { ptr := 1, off := 0, len := 1, cap := 1 } }]
      else []
    next := 3 }

/-- The slice of the example's static routes. -/
def exampleRoutes : Slice := { ptr := 2, off := 0, len := 1, cap := 1 }

/-- The slice of the example's group list. -/
def exampleUse : Slice := { ptr := 0, off := 0, len := 1, cap := 1 }

/-- What holds of the loop of `routeGroup.Routes` over memory after `k` iterations, `m0`
being the memory at the call, `rs` the slice being ranged over and `o` the address of
the array of `out`: `out` has `k` elements in its own array of `n` cells; the arrays
allocated before the call are as they were; the first `k` routes of `out` are the first
`k` routes of `rs`, each with the group's list in front of its own. -/
def routeGroupMem.loopInv (g : routeGroupMem) (m0 : Memory) (rs : Slice) (o n k : Nat)
    (st : Slice × Memory) : Prop :=
  st.1 = { ptr := o, off := 0, len := k, cap := n }
    ∧ (st.2.routes o).length = n
    ∧ m0.next ≤ o ∧ o < st.2.next
    ∧ (∀ a, a < m0.next → st.2.mws a = m0.mws a ∧ st.2.routes a = m0.routes a)
    ∧ (∀ c ∈ (st.2.routes o).take k, c.Use.ptr < st.2.next)
    ∧ ((st.2.routes o).take k).map (fun c => (c.Pattern, c.Handler, st.2.readMws c.Use))
        = ((m0.readRoutes rs).take k).map
            (fun c => (c.Pattern, c.Handler, m0.readMws g.use ++ m0.readMws c.Use))

/-! ## Running programs: sequencing -/

theorem Prog.run_bind {α β σ : Type} (w : ResponseWriter σ) (x : Prog α) (f : α → Prog β)
    (s : σ) : (x.bind f).run w s = (f (x.run w s).1).run w (x.run w s).2 := by
  induction x generalizing s with
  | ret a => rfl
  | WriteHeader status next ih => simp only [Prog.bind, Prog.run, ih]
  | Write p next ih => simp only [Prog.bind, Prog.run, ih]
  | HeaderSet key value next ih => simp only [Prog.bind, Prog.run, ih]
  | Open files name next ih => simp only [Prog.bind, Prog.run, ih]
  | Stat file next ih => simp only [Prog.bind, Prog.run, ih]
  | Log record next ih => simp only [Prog.bind, Prog.run, ih]

theorem Prog.trace_bind {α β σ : Type} (w : ResponseWriter σ) (x : Prog α) (f : α → Prog β)
    (s : σ) :
    (x.bind f).trace w s = x.trace w s ++ (f (x.run w s).1).trace w (x.run w s).2 := by
  induction x generalizing s with
  | ret a => rfl
  | WriteHeader status next ih => simp only [Prog.bind, Prog.run, Prog.trace, ih, List.cons_append]
  | Write p next ih => simp only [Prog.bind, Prog.run, Prog.trace, ih, List.cons_append]
  | HeaderSet key value next ih => simp only [Prog.bind, Prog.run, Prog.trace, ih, List.cons_append]
  | Open files name next ih => simp only [Prog.bind, Prog.run, Prog.trace, ih, List.cons_append]
  | Stat file next ih => simp only [Prog.bind, Prog.run, Prog.trace, ih, List.cons_append]
  | Log record next ih => simp only [Prog.bind, Prog.run, Prog.trace, ih, List.cons_append]

/-! ## Chain -/

theorem Chain.loop_eq_foldr (mws : List Middleware) (k : Nat) (hk : k ≤ mws.length)
    (h : Handler) :
    Chain.loop mws k hk h = (mws.take k).foldr (fun m inner => m inner) h := by
  induction k generalizing h with
  | zero => simp [Chain.loop]
  | succ k ih =>
    have hlt : k < mws.length := hk
    have htake : mws.take (k + 1) = mws.take k ++ [mws[k]] := by
      rw [List.take_succ, List.getElem?_eq_getElem hlt]
      rfl
    rw [Chain.loop, ih, htake, List.foldr_append]
    rfl

theorem Chain_eq_foldr (h : Handler) (mws : List Middleware) :
    Chain h mws = mws.foldr (fun m inner => m inner) h := by
  rw [Chain, Chain.loop_eq_foldr, List.take_length]

theorem Chain_nil (h : Handler) : Chain h [] = h := by
  simp [Chain_eq_foldr]

theorem Chain_cons (h : Handler) (m : Middleware) (mws : List Middleware) :
    Chain h (m :: mws) = m (Chain h mws) := by
  simp [Chain_eq_foldr]

theorem Chain_append (h : Handler) (as bs : List Middleware) :
    Chain h (as ++ bs) = Chain (Chain h bs) as := by
  simp [Chain_eq_foldr, List.foldr_append]

theorem Chain_logging_trace {σ : Type} (w : ResponseWriter σ) (h : Handler) (r : Request)
    (labels : List String) (s : σ) :
    (Chain h (labels.map loggingMiddleware) r).trace w s
        = labels.map (fun l => Op.Log (preRecord l)) ++ (h r).trace w s
            ++ labels.reverse.map (fun l => Op.Log (postRecord l))
      ∧ (Chain h (labels.map loggingMiddleware) r).run w s = (h r).run w s := by
  induction labels with
  | nil => simp [Chain_nil]
  | cons l ls ih =>
    rw [List.map_cons, Chain_cons]
    constructor
    · simp only [loggingMiddleware, Prog.trace, Prog.trace_bind, ih.1, ih.2]
      simp
    · simp only [loggingMiddleware, Prog.run, Prog.run_bind, ih.2]

/-- C1: `Chain(h, m1, ..., mn)` is `m1(m2(...(mn(h))...))`, the right fold of application
over the list, so the first middleware is the outermost wrapper: when each middleware
logs `pre i`, calls the handler it wraps and then logs `post i`, a run of the chained
handler logs `pre 1, ..., pre n`, then does what `h` does, then logs `post n, ..., post 1`,
and leaves the response of `h` on the sink. -/
theorem C1_Chain_is_right_fold (h : Handler) (mws : List Middleware) :
    Chain h mws = mws.foldr (fun m inner => m inner) h
      ∧ ∀ (labels : List String) (r : Request) (σ : Type) (w : ResponseWriter σ) (s : σ),
          (Chain h (labels.map loggingMiddleware) r).trace w s
              = labels.map (fun l => Op.Log (preRecord l)) ++ (h r).trace w s
                  ++ labels.reverse.map (fun l => Op.Log (postRecord l))
            ∧ (Chain h (labels.map loggingMiddleware) r).run w s = (h r).run w s :=
  ⟨Chain_eq_foldr h mws, fun labels r _ w s => Chain_logging_trace w h r labels s⟩

/-! ## The hooked writer -/

theorem Prog.onHooked_run {α σ : Type} (w : ResponseWriter σ) (a : Prog α)
    (hrw : hookedResponseWriter) (s : σ) :
    (a.onHooked hrw).run w s
      = (((a.run (hooked w) (s, hrw)).1, (a.run (hooked w) (s, hrw)).2.2),
          (a.run (hooked w) (s, hrw)).2.1) := by
  induction a generalizing s hrw with
  | ret a => rfl
  | WriteHeader status next ih =>
    simp only [Prog.onHooked, Prog.run_bind, ih, Prog.run, hooked]
  | Write p next ih =>
    simp only [Prog.onHooked, Prog.run_bind, ih, Prog.run, hooked]
  | HeaderSet key value next ih =>
    simp only [Prog.onHooked, Prog.run_bind, ih, Prog.run, hooked]
  | Open files name next ih => simp only [Prog.onHooked, Prog.run, ih]
  | Stat file next ih => simp only [Prog.onHooked, Prog.run, ih]
  | Log record next ih => simp only [Prog.onHooked, Prog.run, ih]


theorem hooked_WriteHeader {σ : Type} (w : ResponseWriter σ) (status : Int) (s : σ)
    (hrw : hookedResponseWriter) :
    (hooked w).WriteHeader status (s, hrw)
      = if status = StatusNotFound then (s, { got404 := true })
        else (w.WriteHeader status s, hrw) := by
  simp only [hooked, hookedResponseWriter.WriteHeader]
  split <;> rfl

theorem hooked_Write {σ : Type} (w : ResponseWriter σ) (p : Bytes) (s : σ)
    (hrw : hookedResponseWriter) :
    (hooked w).Write p (s, hrw)
      = if hrw.got404 then (((p.length : Int), none), (s, hrw))
        else ((w.Write p s).1, ((w.Write p s).2, hrw)) := by
  simp only [hooked, hookedResponseWriter.Write]
  split <;> rfl

theorem hooked_HeaderSet {σ : Type} (w : ResponseWriter σ) (key value : String) (s : σ)
    (hrw : hookedResponseWriter) :
    (hooked w).HeaderSet key value (s, hrw) = (w.HeaderSet key value s, hrw) := rfl

/-- The flag when the body returns: set before, or set by a `WriteHeader(404)`. -/
theorem hooked_flag {α σ : Type} (w : ResponseWriter σ) (a : Prog α) (s : σ)
    (hrw : hookedResponseWriter) :
    (a.run (hooked w) (s, hrw)).2.2.got404
      = (hrw.got404 || (a.trace (hooked w) (s, hrw)).any Op.is404) := by
  induction a generalizing s hrw with
  | ret a => simp [Prog.run, Prog.trace]
  | WriteHeader status next ih =>
    simp only [Prog.run, Prog.trace, hooked_WriteHeader, List.any_cons, Op.is404]
    by_cases h : status = StatusNotFound
    · simp [h, ih]
    · simp [h, ih]
  | Write p next ih =>
    simp only [Prog.run, Prog.trace, hooked_Write, List.any_cons, Op.is404]
    cases hg : hrw.got404
    · simp [ih, hg]
    · simp [ih, hg]
  | HeaderSet key value next ih =>
    simp [Prog.run, Prog.trace, hooked_HeaderSet, List.any_cons, Op.is404, ih]
  | Open files name next ih => simp [Prog.run, Prog.trace, List.any_cons, Op.is404, ih]
  | Stat file next ih => simp [Prog.run, Prog.trace, List.any_cons, Op.is404, ih]
  | Log record next ih => simp [Prog.run, Prog.trace, List.any_cons, Op.is404, ih]

/-- What reaches the embedded writer while the body runs on the hooked writer: every
call made before the first `WriteHeader(404)`; of the calls made from that point on,
neither a `WriteHeader(404)` nor a `Write`, and every other call. -/
theorem Prog.onHooked_trace {α σ : Type} (w : ResponseWriter σ) (a : Prog α) (s : σ)
    (hrw : hookedResponseWriter) :
    (a.onHooked hrw).trace w s
      = if hrw.got404 then
          (a.trace (hooked w) (s, hrw)).filter (fun o => !o.isWrite && !o.is404)
        else
          (a.trace (hooked w) (s, hrw)).takeWhile (fun o => !o.is404)
            ++ ((a.trace (hooked w) (s, hrw)).dropWhile (fun o => !o.is404)).filter
                (fun o => !o.isWrite && !o.is404) := by
  induction a generalizing s hrw with
  | ret a => cases hrw.got404 <;> simp [Prog.onHooked, Prog.trace]
  | WriteHeader status next ih =>
    simp only [Prog.onHooked, Prog.trace, Prog.trace_bind, Prog.run_bind, hooked_WriteHeader]
    by_cases h : status = StatusNotFound
    · subst h
      cases hg : hrw.got404 <;>
        simp [hookedResponseWriter.WriteHeader, Prog.trace, Prog.run, ih, Op.is404, Op.isWrite,
          List.takeWhile, List.dropWhile]
    · cases hg : hrw.got404 <;>
        simp [hookedResponseWriter.WriteHeader, Prog.trace, Prog.run, ih, Op.is404, Op.isWrite,
          List.takeWhile, List.dropWhile, h, hg]
  | Write p next ih =>
    simp only [Prog.onHooked, Prog.trace, Prog.trace_bind, Prog.run_bind, hooked_Write]
    cases hg : hrw.got404 <;>
      simp [hookedResponseWriter.Write, Prog.trace, Prog.run, ih, Op.is404, Op.isWrite,
        List.takeWhile, List.dropWhile, hg]
  | HeaderSet key value next ih =>
    simp only [Prog.onHooked, Prog.trace, Prog.trace_bind, Prog.run_bind, hooked_HeaderSet]
    cases hg : hrw.got404 <;>
      simp [hookedResponseWriter.HeaderSet, Prog.trace, Prog.run, ih, Op.is404, Op.isWrite,
        List.takeWhile, List.dropWhile, hg]
  | Open files name next ih =>
    cases hg : hrw.got404 <;>
      simp [Prog.onHooked, Prog.trace, ih, Op.is404, Op.isWrite, List.takeWhile,
        List.dropWhile, hg]
  | Stat file next ih =>
    cases hg : hrw.got404 <;>
      simp [Prog.onHooked, Prog.trace, ih, Op.is404, Op.isWrite, List.takeWhile,
        List.dropWhile, hg]
  | Log record next ih =>
    cases hg : hrw.got404 <;>
      simp [Prog.onHooked, Prog.trace, ih, Op.is404, Op.isWrite, List.takeWhile,
        List.dropWhile, hg]


theorem Op.is404_iff (o : Op) : o.is404 = true ↔ o = Op.WriteHeader StatusNotFound := by
  cases o <;> simp [Op.is404]

theorem any_is404_eq_false (T : List Op) (h : Op.WriteHeader StatusNotFound ∉ T) :
    T.any Op.is404 = false := by
  rw [Bool.eq_false_iff]
  intro hany
  obtain ⟨o, ho, h404⟩ := List.any_eq_true.mp hany
  exact h ((Op.is404_iff o).mp h404 ▸ ho)

theorem any_is404_eq_true (T : List Op) (h : Op.WriteHeader StatusNotFound ∈ T) :
    T.any Op.is404 = true :=
  List.any_eq_true.mpr ⟨_, h, (Op.is404_iff _).mpr rfl⟩

/-- While no `WriteHeader(404)` is made, the hooked writer behaves as the writer it
embeds: same calls, same results, same sink state. -/
theorem hooked_transparent {α σ : Type} (w : ResponseWriter σ) (a : Prog α) (s : σ)
    (h : (a.trace (hooked w) (s, { got404 := false })).any Op.is404 = false) :
    a.run (hooked w) (s, { got404 := false }) = ((a.run w s).1, ((a.run w s).2, { got404 := false }))
      ∧ a.trace (hooked w) (s, { got404 := false }) = a.trace w s := by
  induction a generalizing s with
  | ret a => exact ⟨rfl, rfl⟩
  | WriteHeader status next ih =>
    simp only [Prog.trace, List.any_cons, Bool.or_eq_false_iff, hooked_WriteHeader] at h
    have hst : status ≠ StatusNotFound := by
      intro hst
      simp [Op.is404, hst] at h
    simp only [hst, if_false] at h
    simp only [Prog.run, Prog.trace, hooked_WriteHeader, hst, if_false, ih _ h.2]
    exact ⟨trivial, trivial⟩
  | Write p next ih =>
    simp only [Prog.trace, List.any_cons, Bool.or_eq_false_iff, hooked_Write,
      Bool.false_eq_true, if_false] at h
    obtain ⟨h1, h2⟩ := ih _ _ h.2
    simp only [Prog.run, Prog.trace, hooked_Write, Bool.false_eq_true, if_false, h1, h2]
    exact ⟨trivial, trivial⟩
  | HeaderSet key value next ih =>
    simp only [Prog.trace, List.any_cons, Bool.or_eq_false_iff, hooked_HeaderSet] at h
    simp only [Prog.run, Prog.trace, hooked_HeaderSet, ih _ h.2]
    exact ⟨trivial, trivial⟩
  | Open files name next ih =>
    simp only [Prog.trace, List.any_cons, Bool.or_eq_false_iff] at h
    simp only [Prog.run, Prog.trace, ih _ _ h.2]
    exact ⟨trivial, trivial⟩
  | Stat file next ih =>
    simp only [Prog.trace, List.any_cons, Bool.or_eq_false_iff] at h
    simp only [Prog.run, Prog.trace, ih _ _ h.2]
    exact ⟨trivial, trivial⟩
  | Log record next ih =>
    simp only [Prog.trace, List.any_cons, Bool.or_eq_false_iff] at h
    simp only [Prog.run, Prog.trace, ih _ h.2]
    exact ⟨trivial, trivial⟩

/-- Once the flag is set, a run that only makes `Write` calls leaves the sink as it is. -/
theorem hooked_discards {α σ : Type} (w : ResponseWriter σ) (a : Prog α) (s : σ)
    (h : ∀ o ∈ a.trace (hooked w) (s, { got404 := true }), o.isWrite = true) :
    (a.run (hooked w) (s, { got404 := true })).2 = (s, { got404 := true }) := by
  induction a generalizing s with
  | ret a => rfl
  | WriteHeader status next ih =>
    have := h (.WriteHeader status) (by simp [Prog.trace])
    simp [Op.isWrite] at this
  | Write p next ih =>
    simp only [Prog.trace, hooked_Write, if_true, List.mem_cons] at h
    simp only [Prog.run, hooked_Write, if_true]
    exact ih _ _ (fun o ho => h o (Or.inr ho))
  | HeaderSet key value next ih =>
    have := h (.HeaderSet key value) (by simp [Prog.trace])
    simp [Op.isWrite] at this
  | Open files name next ih =>
    have := h (.Open name) (by simp [Prog.trace])
    simp [Op.isWrite] at this
  | Stat file next ih =>
    have := h .Stat (by simp [Prog.trace])
    simp [Op.isWrite] at this
  | Log record next ih =>
    have := h (.Log record) (by simp [Prog.trace])
    simp [Op.isWrite] at this

theorem Intercept404_run {σ : Type} (w : ResponseWriter σ) (handler on404 : Handler)
    (r : Request) (s : σ) :
    (Intercept404 handler on404 r).run w s
      = if (((handler r).onHooked { got404 := false }).run w s).1.2.got404 then
          (on404 r).run w (((handler r).onHooked { got404 := false }).run w s).2
        else ((), (((handler r).onHooked { got404 := false }).run w s).2) := by
  simp only [Intercept404, Prog.run_bind]
  split <;> rfl

theorem Intercept404_trace {σ : Type} (w : ResponseWriter σ) (handler on404 : Handler)
    (r : Request) (s : σ) :
    (Intercept404 handler on404 r).trace w s
      = ((handler r).onHooked { got404 := false }).trace w s
          ++ if (((handler r).onHooked { got404 := false }).run w s).1.2.got404 then
              (on404 r).trace w (((handler r).onHooked { got404 := false }).run w s).2
            else [] := by
  simp only [Intercept404, Prog.trace_bind]
  split <;> rfl



/-- A run on the hooked writer that is `WriteHeader(404)` followed by `Write` calls only
sets the flag, sends nothing to the embedded writer and leaves its state as it was. -/
theorem onHooked_404_then_writes {α σ : Type} (w : ResponseWriter σ) (s : σ) (a : Prog α)
    (ws : List Op)
    (hrun : a.trace (hooked w) (s, { got404 := false }) = Op.WriteHeader StatusNotFound :: ws)
    (hws : ∀ o ∈ ws, o.isWrite = true) :
    ((a.onHooked { got404 := false }).run w s).1.2.got404 = true
      ∧ (a.onHooked { got404 := false }).trace w s = []
      ∧ ((a.onHooked { got404 := false }).run w s).2 = s := by
  have h404 : (Op.WriteHeader StatusNotFound).is404 = true := by decide
  have hfilter : ws.filter (fun o => !o.isWrite && !o.is404) = [] := by
    rw [List.filter_eq_nil_iff]
    intro o ho
    simp [hws o ho]
  refine ⟨?_, ?_, ?_⟩
  · rw [Prog.onHooked_run]
    simp [hooked_flag, hrun, h404]
  · rw [Prog.onHooked_trace, hrun]
    simp [h404, List.takeWhile, List.dropWhile, List.filter, hfilter]
  · rw [Prog.onHooked_run]
    cases hp : a with
    | WriteHeader status next =>
      rw [hp] at hrun
      simp only [Prog.trace, List.cons.injEq, Op.WriteHeader.injEq] at hrun
      obtain ⟨hst, hnext⟩ := hrun
      subst hst
      simp only [hooked_WriteHeader, if_true] at hnext
      simp only [Prog.run, hooked_WriteHeader, if_true]
      rw [hooked_discards w next s (by rw [hnext]; exact hws)]
    | ret a => rw [hp] at hrun; simp [Prog.trace] at hrun
    | Write p next => rw [hp] at hrun; simp [Prog.trace] at hrun
    | HeaderSet key value next => rw [hp] at hrun; simp [Prog.trace] at hrun
    | Open files name next => rw [hp] at hrun; simp [Prog.trace] at hrun
    | Stat file next => rw [hp] at hrun; simp [Prog.trace] at hrun
    | Log record next => rw [hp] at hrun; simp [Prog.trace] at hrun

/-- A run on the hooked writer without `WriteHeader(404)`: the flag stays clear, the
embedded writer receives the calls as made, and the whole of `Intercept404` is the
primary alone. -/
theorem Intercept404_without_404 {σ : Type} (w : ResponseWriter σ) (s : σ)
    (primary fallback : Handler) (r : Request)
    (hrun : Op.WriteHeader StatusNotFound
      ∉ (primary r).trace (hooked w) (s, { got404 := false })) :
    (Intercept404 primary fallback r).trace w s
        = (primary r).trace (hooked w) (s, { got404 := false })
      ∧ (((primary r).onHooked { got404 := false }).run w s).1.2.got404 = false
      ∧ (Intercept404 primary fallback r).run w s = (primary r).run w s
      ∧ (Intercept404 primary fallback r).trace w s = (primary r).trace w s := by
  have hany := any_is404_eq_false _ hrun
  obtain ⟨hr, ht⟩ := hooked_transparent w (primary r) s hany
  have hflag : (((primary r).onHooked { got404 := false }).run w s).1.2.got404 = false := by
    rw [Prog.onHooked_run, hr]
  have hstate : (((primary r).onHooked { got404 := false }).run w s).2 = ((primary r).run w s).2 := by
    rw [Prog.onHooked_run, hr]
  have hphase : ((primary r).onHooked { got404 := false }).trace w s
      = (primary r).trace (hooked w) (s, { got404 := false }) := by
    rw [Prog.onHooked_trace]
    have hall : ∀ o ∈ (primary r).trace (hooked w) (s, { got404 := false }),
        (!o.is404) = true := by
      intro o ho
      cases h4 : o.is404
      · rfl
      · exact absurd ((Op.is404_iff o).mp h4 ▸ ho) hrun
    simp [List.takeWhile_eq_self_iff.mpr hall, List.dropWhile_eq_nil_iff.mpr hall]
  refine ⟨?_, hflag, ?_, ?_⟩
  · rw [Intercept404_trace, hflag, hphase]; simp
  · rw [Intercept404_run, hflag, hstate]; rfl
  · rw [Intercept404_trace, hflag, hphase, ht]; simp

/-! ## Intercept404 -/

/-- C2: when the run of the primary against the hooked writer is `WriteHeader(404)`
followed only by `Write` calls, the response `Intercept404(primary, fallback)` leaves on
the real sink is the response the fallback alone leaves on the same sink, and the calls
the real sink receives are exactly the fallback's: nothing of the primary reaches it. -/
theorem C2_Intercept404_replaces_404_by_fallback {σ : Type} (w : ResponseWriter σ) (s : σ)
    (primary fallback : Handler) (r : Request) (ws : List Op)
    (hrun : (primary r).trace (hooked w) (s, { got404 := false })
      = Op.WriteHeader StatusNotFound :: ws)
    (hws : ∀ o ∈ ws, o.isWrite = true) :
    (Intercept404 primary fallback r).run w s = (fallback r).run w s
      ∧ (Intercept404 primary fallback r).trace w s = (fallback r).trace w s := by
  obtain ⟨hflag, hphase, hstate⟩ := onHooked_404_then_writes w s (primary r) ws hrun hws
  constructor
  · rw [Intercept404_run, hflag, hstate]; rfl
  · rw [Intercept404_trace, hflag, hstate, hphase]; rfl

/-- C2 at the test `TestIntercept404CallsFallback`: status 200 and body "index". -/
theorem C2_Intercept404_replaces_404_by_fallback_witness :
    (testPrimary404 testRequest).trace (hooked recorder) (NewRecorder, { got404 := false })
        = Op.WriteHeader StatusNotFound :: [Op.Write (bytes "missing") (7, none)]
      ∧ ((Intercept404 testPrimary404 testFallbackIndex testRequest).run recorder NewRecorder
            = (testFallbackIndex testRequest).run recorder NewRecorder
          ∧ (Intercept404 testPrimary404 testFallbackIndex testRequest).trace recorder NewRecorder
            = (testFallbackIndex testRequest).trace recorder NewRecorder)
      ∧ ((testFallbackIndex testRequest).run recorder NewRecorder).2.Code = 200
      ∧ ((testFallbackIndex testRequest).run recorder NewRecorder).2.Body = bytes "index" :=
  ⟨by decide,
   C2_Intercept404_replaces_404_by_fallback recorder NewRecorder testPrimary404
     testFallbackIndex testRequest [Op.Write (bytes "missing") (7, none)] (by decide)
     (by decide),
   by decide, by decide⟩

/-- C3: when the run of the primary against the hooked writer never calls
`WriteHeader(404)`, the real sink receives every call of the primary unchanged and in
order, each `Write` returning to the primary what the real sink returned; the flag is
not set when the primary returns, so the fallback is not invoked; and the final response
and the calls received are those of the primary running alone on the real sink. -/
theorem C3_Intercept404_passes_through {σ : Type} (w : ResponseWriter σ) (s : σ)
    (primary fallback : Handler) (r : Request)
    (hrun : Op.WriteHeader StatusNotFound
      ∉ (primary r).trace (hooked w) (s, { got404 := false })) :
    (Intercept404 primary fallback r).trace w s
        = (primary r).trace (hooked w) (s, { got404 := false })
      ∧ (((primary r).onHooked { got404 := false }).run w s).1.2.got404 = false
      ∧ (Intercept404 primary fallback r).run w s = (primary r).run w s
      ∧ (Intercept404 primary fallback r).trace w s = (primary r).trace w s :=
  Intercept404_without_404 w s primary fallback r hrun

/-- C3 at the test `TestIntercept404SkipsFallbackOnSuccess`: the body is "ok" and the
fallback's record is absent from the run. -/
theorem C3_Intercept404_passes_through_witness :
    Op.WriteHeader StatusNotFound
        ∉ (testPrimaryOk testRequest).trace (hooked recorder) (NewRecorder, { got404 := false })
      ∧ ((Intercept404 testPrimaryOk testFallbackFlag testRequest).trace recorder NewRecorder
            = (testPrimaryOk testRequest).trace (hooked recorder)
                (NewRecorder, { got404 := false })
          ∧ (((testPrimaryOk testRequest).onHooked { got404 := false }).run recorder
                NewRecorder).1.2.got404 = false
          ∧ (Intercept404 testPrimaryOk testFallbackFlag testRequest).run recorder NewRecorder
            = (testPrimaryOk testRequest).run recorder NewRecorder
          ∧ (Intercept404 testPrimaryOk testFallbackFlag testRequest).trace recorder NewRecorder
            = (testPrimaryOk testRequest).trace recorder NewRecorder)
      ∧ ((testPrimaryOk testRequest).run recorder NewRecorder).2.Body = bytes "ok"
      ∧ (testPrimaryOk testRequest).trace recorder NewRecorder
          = [Op.Write (bytes "ok") (2, none)] :=
  ⟨by decide,
   C3_Intercept404_passes_through recorder NewRecorder testPrimaryOk testFallbackFlag
     testRequest (by decide),
   by decide, by decide⟩

/-- C4 as stated fails: `lateNotFound` writes "x" and then calls `WriteHeader(404)`; on
the recorder the flag is set when it returns, yet the real sink has already received the
body write "x", has written the implicit status line and holds the body "x". -/
theorem C4_sink_not_clean_counterexample :
    (((lateNotFound testRequest).onHooked { got404 := false }).run recorder
        NewRecorder).1.2.got404 = true
      ∧ ((lateNotFound testRequest).onHooked { got404 := false }).trace recorder NewRecorder
          = [Op.Write (bytes "x") (1, none)]
      ∧ (((lateNotFound testRequest).onHooked { got404 := false }).run recorder
          NewRecorder).2.wroteHeader = true
      ∧ (((lateNotFound testRequest).onHooked { got404 := false }).run recorder
          NewRecorder).2.Body = bytes "x" := by
  decide

/-- C4 (amended): if the flag is set when the primary returns, the fallback runs on the
original, unwrapped sink with the original request, from the state the primary left; and
at that moment the real sink has received from the primary exactly the calls it made
before its first `WriteHeader(404)` and, of its calls from that point on, no
`WriteHeader(404)` and no `Write`.  When the primary's run is `WriteHeader(404)` followed
by `Write` calls only, the real sink has received nothing and is in its initial state. -/
theorem C4_fallback_runs_on_unwrapped_sink {σ : Type} (w : ResponseWriter σ) (s : σ)
    (primary fallback : Handler) (r : Request)
    (hflag : (((primary r).onHooked { got404 := false }).run w s).1.2.got404 = true) :
    (Intercept404 primary fallback r).run w s
        = (fallback r).run w (((primary r).onHooked { got404 := false }).run w s).2
      ∧ (Intercept404 primary fallback r).trace w s
        = ((primary r).onHooked { got404 := false }).trace w s
            ++ (fallback r).trace w (((primary r).onHooked { got404 := false }).run w s).2
      ∧ ((primary r).onHooked { got404 := false }).trace w s
        = ((primary r).trace (hooked w) (s, { got404 := false })).takeWhile (fun o => !o.is404)
            ++ (((primary r).trace (hooked w) (s, { got404 := false })).dropWhile
                  (fun o => !o.is404)).filter (fun o => !o.isWrite && !o.is404)
      ∧ (∀ ws : List Op,
          (primary r).trace (hooked w) (s, { got404 := false })
              = Op.WriteHeader StatusNotFound :: ws →
          (∀ o ∈ ws, o.isWrite = true) →
          ((primary r).onHooked { got404 := false }).trace w s = []
            ∧ (((primary r).onHooked { got404 := false }).run w s).2 = s) := by
  refine ⟨?_, ?_, ?_, ?_⟩
  · rw [Intercept404_run, hflag]; rfl
  · rw [Intercept404_trace, hflag]; rfl
  · rw [Prog.onHooked_trace]; rfl
  · intro ws hrun hws
    exact (onHooked_404_then_writes w s (primary r) ws hrun hws).2

/-- C4 (amended) at `lateNotFound` on the recorder: the flag is set, the fallback runs
from the state holding "x", and the real sink received the write made before the 404. -/
theorem C4_fallback_runs_on_unwrapped_sink_witness :
    (((lateNotFound testRequest).onHooked { got404 := false }).run recorder
        NewRecorder).1.2.got404 = true
      ∧ (Intercept404 lateNotFound testFallbackIndex testRequest).run recorder NewRecorder
        = (testFallbackIndex testRequest).run recorder
            (((lateNotFound testRequest).onHooked { got404 := false }).run recorder
              NewRecorder).2
      ∧ ((Intercept404 lateNotFound testFallbackIndex testRequest).run recorder
          NewRecorder).2.Body = bytes "x" ++ bytes "index"
      ∧ (((testPrimary404 testRequest).onHooked { got404 := false }).trace recorder
            NewRecorder = []
          ∧ (((testPrimary404 testRequest).onHooked { got404 := false }).run recorder
            NewRecorder).2 = NewRecorder) :=
  ⟨by decide,
   (C4_fallback_runs_on_unwrapped_sink recorder NewRecorder lateNotFound testFallbackIndex
     testRequest (by decide)).1,
   by decide,
   (C4_fallback_runs_on_unwrapped_sink recorder NewRecorder testPrimary404 testFallbackIndex
     testRequest (by decide)).2.2.2 [Op.Write (bytes "missing") (7, none)] (by decide)
     (by decide)⟩

/-- C5 as stated fails: in the run of `lateNotFound` a body `Write` precedes the first
status-setting call, and `WriteHeader(404)` comes afterwards; the flag is set, the later
write "y" is discarded and the fallback is invoked, so the recorder ends with the body
"x" followed by "index". -/
theorem C5_late_404_triggers_counterexample :
    (lateNotFound testRequest).trace (hooked recorder) (NewRecorder, { got404 := false })
        = [Op.Write (bytes "x") (1, none), Op.WriteHeader StatusNotFound,
            Op.Write (bytes "y") (1, none)]
      ∧ (((lateNotFound testRequest).onHooked { got404 := false }).run recorder
          NewRecorder).1.2.got404 = true
      ∧ (Intercept404 lateNotFound testFallbackIndex testRequest).trace recorder NewRecorder
          = [Op.Write (bytes "x") (1, none), Op.Write (bytes "index") (5, none)]
      ∧ ((Intercept404 lateNotFound testFallbackIndex testRequest).run recorder
          NewRecorder).2.Body = bytes "x" ++ bytes "index" := by
  decide

/-- C5 (amended): in a run of the primary on the hooked writer in which a body `Write`
comes before any status-setting call, that `Write` and the calls before it reach the
real sink; the flag is set when the primary returns exactly when `WriteHeader(404)` is
called afterwards.  If it is not called afterwards, interception does not trigger: no
call is discarded, the fallback is not invoked and the result is the primary's alone.
If it is called afterwards, the fallback is invoked on the real sink. -/
theorem C5_write_before_status {σ : Type} (w : ResponseWriter σ) (s : σ)
    (primary fallback : Handler) (r : Request) (pre rest : List Op) (p : Bytes)
    (res : WriteResult)
    (hrun : (primary r).trace (hooked w) (s, { got404 := false })
      = pre ++ Op.Write p res :: rest)
    (hpre : ∀ o ∈ pre, o.isWriteHeader = false) :
    (∃ tail, ((primary r).onHooked { got404 := false }).trace w s
        = pre ++ Op.Write p res :: tail)
      ∧ ((((primary r).onHooked { got404 := false }).run w s).1.2.got404 = true
          ↔ Op.WriteHeader StatusNotFound ∈ rest)
      ∧ (Op.WriteHeader StatusNotFound ∉ rest →
          (Intercept404 primary fallback r).trace w s = pre ++ Op.Write p res :: rest
            ∧ (Intercept404 primary fallback r).run w s = (primary r).run w s
            ∧ (Intercept404 primary fallback r).trace w s = (primary r).trace w s)
      ∧ (Op.WriteHeader StatusNotFound ∈ rest →
          (Intercept404 primary fallback r).run w s
            = (fallback r).run w (((primary r).onHooked { got404 := false }).run w s).2) := by
  have hpre404 : ∀ o ∈ pre, (!o.is404) = true := by
    intro o ho
    have := hpre o ho
    cases o <;> simp_all [Op.is404, Op.isWriteHeader]
  have hpreany : pre.any Op.is404 = false := by
    rw [Bool.eq_false_iff]
    intro hany
    obtain ⟨o, ho, h4⟩ := List.any_eq_true.mp hany
    have := hpre404 o ho
    simp [h4] at this
  have hflag : (((primary r).onHooked { got404 := false }).run w s).1.2.got404
      = rest.any Op.is404 := by
    rw [Prog.onHooked_run]
    simp [hooked_flag, hrun, hpreany, Op.is404]
  have hmem : Op.WriteHeader StatusNotFound ∈ pre ++ Op.Write p res :: rest
      ↔ Op.WriteHeader StatusNotFound ∈ rest := by
    constructor
    · intro h
      rcases List.mem_append.mp h with h | h
      · have := hpre _ h
        simp [Op.isWriteHeader] at this
      · rcases List.mem_cons.mp h with h | h
        · cases h
        · exact h
    · intro h
      exact List.mem_append.mpr (Or.inr (List.mem_cons_of_mem _ h))
  refine ⟨?_, ?_, ?_, ?_⟩
  · refine ⟨rest.takeWhile (fun o => !o.is404)
      ++ ((pre ++ Op.Write p res :: rest).dropWhile (fun o => !o.is404)).filter
          (fun o => !o.isWrite && !o.is404), ?_⟩
    have hw : (Op.Write p res).is404 = false := rfl
    rw [Prog.onHooked_trace, hrun]
    simp [List.takeWhile_append_of_pos hpre404, List.takeWhile_cons, hw]
  · rw [hflag]
    constructor
    · intro h
      obtain ⟨o, ho, h4⟩ := List.any_eq_true.mp h
      exact (Op.is404_iff o).mp h4 ▸ ho
    · exact any_is404_eq_true rest
  · intro hnot
    have hnot' : Op.WriteHeader StatusNotFound
        ∉ (primary r).trace (hooked w) (s, { got404 := false }) := by
      rw [hrun, hmem]; exact hnot
    obtain ⟨h1, _, h3, h4⟩ := Intercept404_without_404 w s primary fallback r hnot'
    exact ⟨h1.trans hrun, h3, h4⟩
  · intro hmem'
    rw [Intercept404_run, hflag, any_is404_eq_true rest hmem']
    rfl

/-- C5 (amended) at `lateNotFound` on the recorder, where the 404 comes after the write. -/
theorem C5_write_before_status_witness :
    (lateNotFound testRequest).trace (hooked recorder) (NewRecorder, { got404 := false })
        = [] ++ Op.Write (bytes "x") (1, none)
            :: [Op.WriteHeader StatusNotFound, Op.Write (bytes "y") (1, none)]
      ∧ ((((lateNotFound testRequest).onHooked { got404 := false }).run recorder
            NewRecorder).1.2.got404 = true
          ↔ Op.WriteHeader StatusNotFound
              ∈ [Op.WriteHeader StatusNotFound, Op.Write (bytes "y") (1, none)])
      ∧ (Intercept404 lateNotFound testFallbackIndex testRequest).run recorder NewRecorder
        = (testFallbackIndex testRequest).run recorder
            (((lateNotFound testRequest).onHooked { got404 := false }).run recorder
              NewRecorder).2 :=
  ⟨by decide,
   (C5_write_before_status recorder NewRecorder lateNotFound testFallbackIndex testRequest
     [] [Op.WriteHeader StatusNotFound, Op.Write (bytes "y") (1, none)] (bytes "x")
     (1, none) (by decide) (by decide)).2.1,
   (C5_write_before_status recorder NewRecorder lateNotFound testFallbackIndex testRequest
     [] [Op.WriteHeader StatusNotFound, Op.Write (bytes "y") (1, none)] (bytes "x")
     (1, none) (by decide) (by decide)).2.2.2 (by decide)⟩

/-- C6: on the hooked writer, `WriteHeader(404)` sends nothing to the real sink, leaves
its state unchanged and sets the flag; and for every byte slice `p`, a `Write(p)` made
while the flag is set sends nothing to the real sink, leaves its state and the flag
unchanged, and returns `(len(p), nil)`. -/
theorem C6_hooked_writer_swallows_404 {σ : Type} (w : ResponseWriter σ) (s : σ)
    (hrw : hookedResponseWriter) (p : Bytes) :
    (hrw.WriteHeader StatusNotFound).trace w s = []
      ∧ (hrw.WriteHeader StatusNotFound).run w s = ({ got404 := true }, s)
      ∧ (hrw.got404 = true →
          (hrw.Write p).trace w s = []
            ∧ (hrw.Write p).run w s = ((((p.length : Int), none), hrw), s)) := by
  refine ⟨?_, ?_, ?_⟩
  · simp [hookedResponseWriter.WriteHeader, Prog.trace]
  · simp [hookedResponseWriter.WriteHeader, Prog.run]
  · intro h
    simp [hookedResponseWriter.Write, h, Prog.trace, Prog.run]

/-- C6 on the recorder, with the flag set and the body "missing" of the test. -/
theorem C6_hooked_writer_swallows_404_witness :
    (({ got404 := true } : hookedResponseWriter).got404 = true)
      ∧ (({ got404 := true } : hookedResponseWriter).Write (bytes "missing")).trace recorder
          NewRecorder = []
      ∧ ((({ got404 := true } : hookedResponseWriter).Write (bytes "missing")).run recorder
          NewRecorder).1.1 = (7, none) :=
  ⟨rfl,
   ((C6_hooked_writer_swallows_404 recorder NewRecorder { got404 := true }
      (bytes "missing")).2.2 rfl).1,
   by decide⟩

/-! ## Groups and registration -/

theorem foldl_append_singleton {α β : Type} (f : α → β) (l : List α) (acc : List β) :
    l.foldl (fun out x => out ++ [f x]) acc = acc ++ l.map f := by
  induction l generalizing acc with
  | nil => simp
  | cons x xs ih => simp [ih]

theorem map_rebuild_route (routes : List Route) :
    routes.map (fun rt => Route.mk rt.Pattern rt.Handler ([] ++ rt.Use)) = routes := by
  induction routes with
  | nil => rfl
  | cons rt rts ih => rw [List.map_cons, ih]; rfl

/-- A group over a present base: the base's routes, each with the group's list put in
front of its own, and the state the base's `Routes()` left. -/
theorem Use_some {S : Type} (R : Routable S) (P : List Middleware) (s : S) :
    Use (some R) P s
      = ((R s).1.map (fun rt => Route.mk rt.Pattern rt.Handler (P ++ rt.Use)), (R s).2) := by
  simp only [Use, routeGroup.Routes]
  split
  · rename_i h
    rcases h with h | h
    · have hnil : (R s).1 = [] := List.length_eq_zero.mp h
      simp [hnil]
    · have hnil : P = [] := List.length_eq_zero.mp h
      subst hnil
      rw [map_rebuild_route]
  · rw [foldl_append_singleton (fun rt : Route => Route.mk rt.Pattern rt.Handler ([] ++ P ++ rt.Use))]
    simp


/-- C7: `Use(R, P...).Routes()` has as many routes as `R.Routes()`, and at each position
the route has the Pattern and the Handler of the route of `R` and the middleware list
`P` followed by that route's own list; with `P` empty the routes are those of `R`. -/
theorem C7_group_prepends_its_list {S : Type} (R : Routable S) (P : List Middleware) (s : S) :
    (Use (some R) P s).1.length = (R s).1.length
      ∧ (∀ i : Nat, (Use (some R) P s).1[i]?
          = ((R s).1[i]?).map (fun rt => Route.mk rt.Pattern rt.Handler (P ++ rt.Use)))
      ∧ (Use (some R) P s).2 = (R s).2
      ∧ Use (some R) [] s = R s := by
  refine ⟨?_, ?_, ?_, ?_⟩
  · rw [Use_some]; simp
  · intro i; rw [Use_some]; simp
  · rw [Use_some]
  · rw [Use_some, map_rebuild_route]

theorem HandleAll_accepting (mux : ServeMux) (pairs : List (String × Handler)) :
    ServeMux.HandleAll (fun _ _ => none) mux pairs = (mux ++ pairs, none) := by
  induction pairs generalizing mux with
  | nil => simp [ServeMux.HandleAll]
  | cons p rest ih =>
    obtain ⟨pattern, handler⟩ := p
    simp [ServeMux.HandleAll, ServeMux.Handle, ih]

theorem HandleAll_take (refusal : List String → String → Option Error) (mux : ServeMux)
    (pairs : List (String × Handler)) :
    ∃ k, k ≤ pairs.length
      ∧ (ServeMux.HandleAll refusal mux pairs).1 = mux ++ pairs.take k
      ∧ ((ServeMux.HandleAll refusal mux pairs).2 = none → k = pairs.length) := by
  induction pairs generalizing mux with
  | nil => exact ⟨0, Nat.le_refl _, by simp [ServeMux.HandleAll], fun _ => rfl⟩
  | cons p rest ih =>
    obtain ⟨pattern, handler⟩ := p
    cases hr : refusal (mux.map Prod.fst) pattern with
    | some e =>
      refine ⟨0, Nat.zero_le _, ?_, ?_⟩
      · simp [ServeMux.HandleAll, ServeMux.Handle, hr]
      · simp [ServeMux.HandleAll, ServeMux.Handle, hr]
    | none =>
      obtain ⟨k, hk, h1, h2⟩ := ih (mux ++ [(pattern, handler)])
      refine ⟨k + 1, by simp; omega, ?_, ?_⟩
      · simp [ServeMux.HandleAll, ServeMux.Handle, hr, h1]
      · intro h
        simp only [ServeMux.HandleAll, ServeMux.Handle, hr] at h
        simp [h2 h]

theorem HandleAll_append (refusal : List String → String → Option Error) (mux : ServeMux)
    (xs ys : List (String × Handler)) :
    ServeMux.HandleAll refusal mux (xs ++ ys)
      = match ServeMux.HandleAll refusal mux xs with
        | (mux, some e) => (mux, some e)
        | (mux, none) => ServeMux.HandleAll refusal mux ys := by
  induction xs generalizing mux with
  | nil => simp [ServeMux.HandleAll]
  | cons p rest ih =>
    obtain ⟨pattern, handler⟩ := p
    cases hr : refusal (mux.map Prod.fst) pattern with
    | some e => simp [ServeMux.HandleAll, ServeMux.Handle, hr]
    | none => simp [ServeMux.HandleAll, ServeMux.Handle, hr, ih]

/-- The inner loop of `Register` hands the pairs of the routes to `Handle` in order, up
to the first panic; it leaves the program state; when it runs to its end it has logged
one record per route. -/
theorem Register_routes_eq {S : Type} (refusal : List String → String → Option Error)
    (routes : List Route) (st : Startup S) :
    ((Register.routes refusal routes st).1.mux, (Register.routes refusal routes st).2)
        = ServeMux.HandleAll refusal st.mux
            (routes.map (fun rt => (rt.Pattern, Chain rt.Handler rt.Use)))
      ∧ (Register.routes refusal routes st).1.state = st.state
      ∧ ((Register.routes refusal routes st).2 = none →
          (Register.routes refusal routes st).1.slog
            = st.slog ++ routes.map
                (fun rt => LogRecord.mk .Debug "registering route" [("pattern", rt.Pattern)])) := by
  induction routes generalizing st with
  | nil => simp [Register.routes, ServeMux.HandleAll]
  | cons rt rts ih =>
    cases hr : refusal (st.mux.map Prod.fst) rt.Pattern with
    | some e =>
      simp [Register.routes, ServeMux.HandleAll, ServeMux.Handle, hr]
    | none =>
      simp only [Register.routes, ServeMux.HandleAll, ServeMux.Handle, hr, List.map_cons]
      obtain ⟨h1, h2, h3⟩ := ih
        { mux := st.mux ++ [(rt.Pattern, Chain rt.Handler rt.Use)],
          slog := st.slog ++
            [LogRecord.mk .Debug "registering route" [("pattern", rt.Pattern)]],
          state := st.state }
      refine ⟨h1, h2, ?_⟩
      intro h
      rw [h3 h]
      simp

/-- What `Register` does: it hands the pairs of all routes, in the order of `rs` and of
each `Routes()`, to `Handle`, up to the first panic; when it returns, the program state
is the one the `Routes()` calls left and one record per route has been logged. -/
theorem Register_eq {S : Type} (refusal : List String → String → Option Error)
    (rs : List (Routable S)) (st : Startup S) :
    ((Register refusal rs st).1.mux, (Register refusal rs st).2)
        = ServeMux.HandleAll refusal st.mux
            ((routesResults rs st.state).flatten.map
              (fun rt => (rt.Pattern, Chain rt.Handler rt.Use)))
      ∧ ((Register refusal rs st).2 = none →
          (Register refusal rs st).1.state = routesState rs st.state
            ∧ (Register refusal rs st).1.slog
              = st.slog ++ (routesResults rs st.state).flatten.map
                  (fun rt => LogRecord.mk .Debug "registering route" [("pattern", rt.Pattern)])) := by
  induction rs generalizing st with
  | nil => simp [Register, routesResults, routesState, ServeMux.HandleAll]
  | cons r rs ih =>
    obtain ⟨h1, h2, h3⟩ := Register_routes_eq refusal (r st.state).1
      { st with state := (r st.state).2 }
    simp only [routesResults, routesState, List.flatten_cons, List.map_append,
      HandleAll_append]
    rw [← h1]
    cases hres : Register.routes refusal (r st.state).1 { st with state := (r st.state).2 } with
    | mk st1 err =>
      rw [hres] at h1 h2 h3
      cases err with
      | some e => simp [Register, hres]
      | none =>
        obtain ⟨i1, i2⟩ := ih st1
        simp only at h2 h3
        have h3' := h3 trivial
        simp only [Register, hres]
        rw [h2] at i1 i2
        refine ⟨i1, ?_⟩
        intro hnone
        obtain ⟨j1, j2⟩ := i2 hnone
        refine ⟨j1, ?_⟩
        rw [j2, h3']
        simp

/-- The result of `Register` on a single Routable. -/
theorem Register_single {S : Type} (refusal : List String → String → Option Error)
    (r : Routable S) (st : Startup S) :
    ((Register refusal [r] st).1.mux, (Register refusal [r] st).2)
      = ServeMux.HandleAll refusal st.mux
          ((r st.state).1.map (fun rt => (rt.Pattern, Chain rt.Handler rt.Use))) := by
  have h := (Register_eq refusal [r] st).1
  simpa [routesResults] using h

theorem routesResults_length {S : Type} (rs : List (Routable S)) (s : S) :
    (routesResults rs s).length = rs.length := by
  induction rs generalizing s with
  | nil => rfl
  | cons r rs ih => simp [routesResults, ih]

theorem routesResults_static {S : Type} (lists : List (List Route)) (s : S) :
    routesResults (lists.map (fun l => (Routes l : Routable S))) s = lists := by
  induction lists with
  | nil => rfl
  | cons l ls ih =>
    show l :: routesResults (ls.map (fun l => (Routes l : Routable S))) s = l :: ls
    rw [ih]

/-- C8: the routes of `Use(Use(R, B...), A...)` carry the middleware list `A ++ B ++ U`,
`U` being the route's own list; `Register` hands to `Handle`, for each of them in order
and up to the first refused pattern, the pattern with `Chain(h, A ++ B ++ U)`, so a
multiplexer that accepts them holds exactly these binds; that handler is
`a1(...(ak(b1(...(bm(u1(...(un(h)))))))))`; with logging middleware the run logs the
`pre` records of `A`, `B`, `U` in that order, does what `h` does, and logs the `post`
records in the reverse order. -/
theorem C8_nested_groups_order {S : Type} (R : Routable S) (A B : List Middleware)
    (st : Startup S) :
    Use (some (Use (some R) B)) A st.state
        = ((R st.state).1.map (fun rt => Route.mk rt.Pattern rt.Handler (A ++ B ++ rt.Use)),
            (R st.state).2)
      ∧ (∀ refusal : List String → String → Option Error,
          ((Register refusal [Use (some (Use (some R) B)) A] st).1.mux,
              (Register refusal [Use (some (Use (some R) B)) A] st).2)
            = ServeMux.HandleAll refusal st.mux
                ((R st.state).1.map
                  (fun rt => (rt.Pattern, Chain rt.Handler (A ++ B ++ rt.Use)))))
      ∧ (Register (fun _ _ => none) [Use (some (Use (some R) B)) A] st).1.mux
        = st.mux ++ (R st.state).1.map
            (fun rt => (rt.Pattern, Chain rt.Handler (A ++ B ++ rt.Use)))
      ∧ (∀ (h : Handler) (U : List Middleware),
          Chain h (A ++ B ++ U)
            = A.foldr (fun m inner => m inner)
                (B.foldr (fun m inner => m inner) (U.foldr (fun m inner => m inner) h)))
      ∧ (∀ (la lb lu : List String) (h : Handler) (r : Request) (σ : Type)
          (w : ResponseWriter σ) (s : σ),
          (Chain h (la.map loggingMiddleware ++ lb.map loggingMiddleware
                ++ lu.map loggingMiddleware) r).trace w s
            = (la ++ lb ++ lu).map (fun l => Op.Log (preRecord l)) ++ (h r).trace w s
                ++ (la ++ lb ++ lu).reverse.map (fun l => Op.Log (postRecord l))) := by
  have hroutes : Use (some (Use (some R) B)) A st.state
      = ((R st.state).1.map (fun rt => Route.mk rt.Pattern rt.Handler (A ++ B ++ rt.Use)),
          (R st.state).2) := by
    rw [Use_some, Use_some]
    simp [Function.comp_def]
  have hpairs : ∀ refusal : List String → String → Option Error,
      ((Register refusal [Use (some (Use (some R) B)) A] st).1.mux,
          (Register refusal [Use (some (Use (some R) B)) A] st).2)
        = ServeMux.HandleAll refusal st.mux
            ((R st.state).1.map
              (fun rt => (rt.Pattern, Chain rt.Handler (A ++ B ++ rt.Use)))) := by
    intro refusal
    rw [Register_single, hroutes]
    simp [Function.comp_def]
  refine ⟨hroutes, hpairs, ?_, ?_, ?_⟩
  · have h := congrArg Prod.fst (hpairs (fun _ _ => none))
    rw [HandleAll_accepting] at h
    exact h
  · intro h U
    simp [Chain_eq_foldr, List.foldr_append]
  · intro la lb lu h r σ w s
    have := (Chain_logging_trace w h r (la ++ lb ++ lu) s).1
    simpa using this

/-- C9 as stated fails: with a multiplexer that refuses a pattern already registered, as
`http.ServeMux` does, `Register` over three Routables producing `GET /a`, `GET /a` and
`GET /b` panics at the second bind; one pattern is bound, not three, and `GET /b` is
never bound. -/
theorem C9_duplicate_pattern_counterexample :
    (Register refuseDuplicates
        [(Routes [routeA] : Routable Unit), Routes [routeA], Routes [routeB]]
        { mux := [], slog := [], state := () }).2
        = some "pattern conflicts with a registered pattern"
      ∧ (Register refuseDuplicates
          [(Routes [routeA] : Routable Unit), Routes [routeA], Routes [routeB]]
          { mux := [], slog := [], state := () }).1.mux.map Prod.fst = ["GET /a"]
      ∧ ((routesResults
          [(Routes [routeA] : Routable Unit), Routes [routeA], Routes [routeB]] ()).map
            List.length).sum = 3 := by
  decide

/-- C9 (amended): `Register` calls `Handle` once per route, in the order of `rs` and,
within one Routable, in the order of its `Routes()`, with the route's Pattern and
`Chain(rt.Handler, rt.Use...)`, until the multiplexer refuses a pattern: the binds made
are a leading part of that sequence.  `Register` itself drops and merges nothing: when
it returns, every route is bound and the number of binds is the sum of the lengths of
the `Routes()` results; on a multiplexer that accepts every pattern it always returns,
and a pattern produced twice is bound twice.  For static Routables the results are the
lists they were built from. -/
theorem C9_Register_binds_until_refused {S : Type}
    (refusal : List String → String → Option Error) (rs : List (Routable S))
    (st : Startup S) :
    ((Register refusal rs st).1.mux, (Register refusal rs st).2)
        = ServeMux.HandleAll refusal st.mux
            ((routesResults rs st.state).flatten.map
              (fun rt => (rt.Pattern, Chain rt.Handler rt.Use)))
      ∧ (∃ k, k ≤ (routesResults rs st.state).flatten.length
          ∧ (Register refusal rs st).1.mux
            = st.mux ++ ((routesResults rs st.state).flatten.map
                (fun rt => (rt.Pattern, Chain rt.Handler rt.Use))).take k)
      ∧ ((Register refusal rs st).2 = none →
          (Register refusal rs st).1.mux
              = st.mux ++ (routesResults rs st.state).flatten.map
                  (fun rt => (rt.Pattern, Chain rt.Handler rt.Use))
            ∧ (Register refusal rs st).1.mux.length
              = st.mux.length + ((routesResults rs st.state).map List.length).sum
            ∧ (Register refusal rs st).1.state = routesState rs st.state)
      ∧ ((Register (fun _ _ => none) rs st).2 = none
          ∧ (Register (fun _ _ => none) rs st).1.mux
            = st.mux ++ (routesResults rs st.state).flatten.map
                (fun rt => (rt.Pattern, Chain rt.Handler rt.Use)))
      ∧ (routesResults rs st.state).length = rs.length
      ∧ (∀ lists : List (List Route),
          routesResults (lists.map (fun l => (Routes l : Routable S))) st.state = lists)
      ∧ (∀ rt : Route,
          (Register (fun _ _ => none) [(Routes [rt] : Routable S), Routes [rt]] st).1.mux
            = st.mux ++ [(rt.Pattern, Chain rt.Handler rt.Use),
                (rt.Pattern, Chain rt.Handler rt.Use)]) := by
  obtain ⟨heq, hnone⟩ := Register_eq refusal rs st
  have hmux := congrArg Prod.fst heq
  have herr := congrArg Prod.snd heq
  simp only at hmux herr
  obtain ⟨k, hk, hk1, hk2⟩ := HandleAll_take refusal st.mux
    ((routesResults rs st.state).flatten.map (fun rt => (rt.Pattern, Chain rt.Handler rt.Use)))
  have hfull : (Register refusal rs st).2 = none →
      (Register refusal rs st).1.mux
        = st.mux ++ (routesResults rs st.state).flatten.map
            (fun rt => (rt.Pattern, Chain rt.Handler rt.Use)) := by
    intro h
    rw [herr] at h
    rw [hmux, hk1, hk2 h, List.take_length]
  have hacc := Register_eq (fun _ _ => none) rs st
  rw [HandleAll_accepting] at hacc
  rw [List.length_map] at hk
  refine ⟨heq, ⟨k, hk, by rw [hmux, hk1]⟩, ?_, ?_, routesResults_length rs st.state,
    fun lists => routesResults_static lists st.state, ?_⟩
  · intro h
    refine ⟨hfull h, ?_, (hnone h).1⟩
    rw [hfull h]
    simp [List.length_flatten, Function.comp_def]
  · exact ⟨congrArg Prod.snd hacc.1, congrArg Prod.fst hacc.1⟩
  · intro rt
    have h := congrArg Prod.fst
      (Register_eq (fun _ _ => none) [(Routes [rt] : Routable S), Routes [rt]] st).1
    rw [HandleAll_accepting] at h
    simpa [routesResults, Routes, staticRoutes.Routes] using h

/-- C9 (amended) at the registrar example: two Routables producing `GET /a` and `GET /b`
on a multiplexer that refuses duplicates; `Register` returns and both are bound. -/
theorem C9_Register_binds_until_refused_witness :
    (Register refuseDuplicates [(Routes [routeA] : Routable Unit), Routes [routeB]]
        { mux := [], slog := [], state := () }).2 = none
      ∧ (Register refuseDuplicates [(Routes [routeA] : Routable Unit), Routes [routeB]]
          { mux := [], slog := [], state := () }).1.mux.length
        = 0 + ((routesResults [(Routes [routeA] : Routable Unit), Routes [routeB]] ()).map
            List.length).sum
      ∧ (Register refuseDuplicates [(Routes [routeA] : Routable Unit), Routes [routeB]]
          { mux := [], slog := [], state := () }).1.mux.map Prod.fst = ["GET /a", "GET /b"] :=
  ⟨by decide,
   ((C9_Register_binds_until_refused refuseDuplicates
      [(Routes [routeA] : Routable Unit), Routes [routeB]]
      { mux := [], slog := [], state := () }).2.2.1 (by decide)).2.1,
   by decide⟩

/-! ## ServeFileContents -/

theorem Contains_of_missing (r : Request) (h : r.Header "Accept" = []) :
    strings.Contains (r.Header.Get "Accept") "text/html" = false := by
  have hget : r.Header.Get "Accept" = "" := by
    simp [Header.Get, h]
  rw [hget]
  decide

/-- C10: for a request whose `Accept` header does not contain "text/html", a missing
header included, and for every file system, the handler of `ServeFileContents` calls
`WriteHeader(404)` first, then writes "404 not found", and logs when that write fails;
it makes no `Open` call, and its body does not depend on the file system.  On the
recorder the status is 404. -/
theorem C10_ServeFileContents_rejects_non_html
    (ServeContent : Request → String → Int → File → Prog Unit) (file : String)
    (files : FileSystem) (r : Request)
    (hAccept : strings.Contains (r.Header.Get "Accept") "text/html" = false) :
    (∀ (σ : Type) (w : ResponseWriter σ) (s : σ),
        (ServeFileContents ServeContent file files r).trace w s
            = Op.WriteHeader StatusNotFound
                :: Op.Write (bytes "404 not found")
                    (w.Write (bytes "404 not found") (w.WriteHeader StatusNotFound s)).1
                :: (match (w.Write (bytes "404 not found") (w.WriteHeader StatusNotFound s)).1.2 with
                    | some err =>
                        [Op.Log (LogRecord.mk .Error "error writing 404 response" [("err", err)])]
                    | none => [])
          ∧ ∀ name, Op.Open name ∉ (ServeFileContents ServeContent file files r).trace w s)
      ∧ (∀ files' : FileSystem,
          ServeFileContents ServeContent file files' r
            = ServeFileContents ServeContent file files r)
      ∧ ((ServeFileContents ServeContent file files r).run recorder NewRecorder).2.Code = 404
      ∧ (r.Header "Accept" = [] →
          strings.Contains (r.Header.Get "Accept") "text/html" = false) := by
  have hbody : ∀ fs : FileSystem, ServeFileContents ServeContent file fs r
      = .WriteHeader StatusNotFound (.Write (bytes "404 not found") fun res =>
          match res.2 with
          | some err =>
              .Log (LogRecord.mk .Error "error writing 404 response" [("err", err)]) (.ret ())
          | none => .ret ()) := by
    intro fs
    simp [ServeFileContents, hAccept]
  have htrace : ∀ (σ : Type) (w : ResponseWriter σ) (s : σ),
      (ServeFileContents ServeContent file files r).trace w s
        = Op.WriteHeader StatusNotFound
            :: Op.Write (bytes "404 not found")
                (w.Write (bytes "404 not found") (w.WriteHeader StatusNotFound s)).1
            :: (match (w.Write (bytes "404 not found") (w.WriteHeader StatusNotFound s)).1.2 with
                | some err =>
                    [Op.Log (LogRecord.mk .Error "error writing 404 response" [("err", err)])]
                | none => []) := by
    intro σ w s
    rw [hbody]
    simp only [Prog.trace]
    cases (w.Write (bytes "404 not found") (w.WriteHeader StatusNotFound s)).1.2 <;> rfl
  refine ⟨fun σ w s => ⟨htrace σ w s, ?_⟩, ?_, ?_, Contains_of_missing r⟩
  · intro name
    rw [htrace]
    cases (w.Write (bytes "404 not found") (w.WriteHeader StatusNotFound s)).1.2 <;> simp
  · intro files'
    rw [hbody, hbody]
  · rw [hbody]
    rfl

/-- C10 at the test `TestServeFileContentsRejectsNonHTML`: `Accept: application/json`,
a file system that holds `index.html`; and for a request without `Accept` header. -/
theorem C10_ServeFileContents_rejects_non_html_witness :
    strings.Contains (testRequestJSON.Header.Get "Accept") "text/html" = false
      ∧ (ServeFileContents plainServeContent "index.html" testFiles testRequestJSON).trace
          recorder NewRecorder
        = [Op.WriteHeader StatusNotFound, Op.Write (bytes "404 not found") (13, none)]
      ∧ ((ServeFileContents plainServeContent "index.html" testFiles testRequestJSON).run
          recorder NewRecorder).2.Code = 404
      ∧ strings.Contains (testRequest.Header.Get "Accept") "text/html" = false :=
  ⟨by decide,
   ((C10_ServeFileContents_rejects_non_html plainServeContent "index.html" testFiles
      testRequestJSON (by decide)).1 ResponseRecorder recorder NewRecorder).1,
   (C10_ServeFileContents_rejects_non_html plainServeContent "index.html" testFiles
      testRequestJSON (by decide)).2.2.1,
   (C10_ServeFileContents_rejects_non_html plainServeContent "index.html" testFiles
      testRequest (by decide)).2.2.2 rfl⟩

/-! ## DevProxy -/

/-- C11: `DevProxy` drops the error of `url.Parse`: for every address its result is the
proxy built from whatever URL the parse returned, nil included, with the response hook
installed, and it is the result obtained when the parse reports no error at all.  For
the unparsable address ":" of the stand-in parser it returns a proxy with a nil target
instead of failing. -/
theorem C11_DevProxy_drops_parse_error (urlParse : String → Option URL × Option Error)
    (address : String) :
    DevProxy urlParse address
        = { target := (urlParse address).1, ModifyResponse := some DevProxy.ModifyResponse }
      ∧ DevProxy urlParse address = DevProxy (fun a => ((urlParse a).1, none)) address
      ∧ (stubParse ":").2 = some "parse error"
      ∧ (DevProxy stubParse ":").target = none := by
  refine ⟨rfl, rfl, ?_, ?_⟩
  · decide
  · decide

/-- C18: the response hook of `DevProxy` returns no error; when the `Upgrade` header of
the response is "websocket" it sets `Connection` to the single value "upgrade" and
leaves every other header and the status as they were; otherwise it leaves the response
as it was.  `DevProxy` installs this hook for every address. -/
theorem C18_ModifyResponse_sets_connection_upgrade (resp : Response) :
    (DevProxy.ModifyResponse resp).2 = none
      ∧ (resp.Header.Get "Upgrade" = "websocket" →
          (DevProxy.ModifyResponse resp).1.Header "Connection" = ["upgrade"]
            ∧ (DevProxy.ModifyResponse resp).1.Header.Get "Connection" = "upgrade"
            ∧ (∀ key, key ≠ "Connection" →
                (DevProxy.ModifyResponse resp).1.Header key = resp.Header key)
            ∧ (DevProxy.ModifyResponse resp).1.StatusCode = resp.StatusCode)
      ∧ (resp.Header.Get "Upgrade" ≠ "websocket" → (DevProxy.ModifyResponse resp).1 = resp)
      ∧ (∀ (urlParse : String → Option URL × Option Error) (address : String),
          (DevProxy urlParse address).ModifyResponse = some DevProxy.ModifyResponse) := by
  refine ⟨?_, ?_, ?_, ?_⟩
  · unfold DevProxy.ModifyResponse
    split <;> rfl
  · intro h
    have hm : DevProxy.ModifyResponse resp
        = ({ resp with Header := resp.Header.Set "Connection" "upgrade" }, none) := by
      simp [DevProxy.ModifyResponse, h]
    rw [hm]
    refine ⟨?_, ?_, ?_, rfl⟩
    · simp [Header.Set]
    · simp [Header.Get, Header.Set]
    · intro key hkey
      simp [Header.Set, hkey]
  · intro h
    simp [DevProxy.ModifyResponse, h]
  · intro urlParse address
    rfl

/-- C18 at a response with `Upgrade: websocket`, and at one without any header. -/
theorem C18_ModifyResponse_sets_connection_upgrade_witness :
    upgradeResponse.Header.Get "Upgrade" = "websocket"
      ∧ (DevProxy.ModifyResponse upgradeResponse).1.Header "Connection" = ["upgrade"]
      ∧ (DevProxy.ModifyResponse upgradeResponse).1.Header "Upgrade" = ["websocket"]
      ∧ (DevProxy.ModifyResponse { StatusCode := 200, Header := fun _ => [] }).1
          = { StatusCode := 200, Header := fun _ => [] } :=
  ⟨by decide,
   ((C18_ModifyResponse_sets_connection_upgrade upgradeResponse).2.1 (by decide)).1,
   by decide,
   (C18_ModifyResponse_sets_connection_upgrade
      { StatusCode := 200, Header := fun _ => [] }).2.2.1 (by decide)⟩

/-! ## Routables -/

/-- C12: `RoutableFunc.Routes` on a nil function returns no routes and leaves the program
state; on a function `f` it returns the result of calling `f` in the current state, so
a second `Routes()` is a second call of `f`, in the state the first call left: when the
two calls of `f` return different lists, so do the two `Routes()` calls. -/
theorem C12_RoutableFunc_calls_f_each_time {S : Type} (f : S → List Route × S) (s : S) :
    RoutableFunc.Routes (none : RoutableFunc S) s = ([], s)
      ∧ RoutableFunc.Routes (some f) s = f s
      ∧ RoutableFunc.Routes (some f) (RoutableFunc.Routes (some f) s).2 = f (f s).2
      ∧ ((f s).1.length ≠ (f (f s).2).1.length →
          (RoutableFunc.Routes (some f) s).1.length
            ≠ (RoutableFunc.Routes (some f) (RoutableFunc.Routes (some f) s).2).1.length) :=
  ⟨rfl, rfl, rfl, fun h => h⟩

/-- C12 at a function that returns one more route on every call. -/
theorem C12_RoutableFunc_calls_f_each_time_witness :
    (countingRoutes 0).1.length ≠ (countingRoutes (countingRoutes 0).2).1.length
      ∧ (RoutableFunc.Routes (some countingRoutes) 0).1.length
          ≠ (RoutableFunc.Routes (some countingRoutes)
              (RoutableFunc.Routes (some countingRoutes) 0).2).1.length
      ∧ (RoutableFunc.Routes (some countingRoutes) 0).1.length = 0
      ∧ (RoutableFunc.Routes (some countingRoutes) 1).1.length = 1 :=
  ⟨by decide,
   (C12_RoutableFunc_calls_f_each_time countingRoutes 0).2.2.2 (by decide),
   by decide, by decide⟩

/-- C13: for every middleware list `P`, the group's `Routes()` returns no routes when its
base is nil, leaving the program state, and when the `Routes()` of its base returns no
routes, leaving the state the base's call left. -/
theorem C13_group_without_routes {S : Type} (P : List Middleware) (s : S) :
    routeGroup.Routes { base := none, use := P } s = ([], s)
      ∧ ∀ R : Routable S, (R s).1 = [] →
          routeGroup.Routes { base := some R, use := P } s = ([], (R s).2) := by
  refine ⟨rfl, ?_⟩
  intro R hR
  have h := Use_some R P s
  rw [hR] at h
  exact h

/-- C13 at a static Routable without routes and a group with one middleware. -/
theorem C13_group_without_routes_witness :
    ((Routes [] : Routable Unit) ()).1 = []
      ∧ routeGroup.Routes (routeGroup.mk (some (Routes [] : Routable Unit))
          [loggingMiddleware "a"]) () = ([], ()) :=
  ⟨rfl,
   (C13_group_without_routes [loggingMiddleware "a"] ()).2 (Routes []) rfl⟩

/-- C15: `Chain(h)` with an empty middleware list is `h`. -/
theorem C15_Chain_empty_is_identity (h : Handler) : Chain h [] = h :=
  Chain_nil h

/-- C20: `Chain(h, A ++ B)` is `Chain(Chain(h, B...), A...)`: chaining the concatenation
is chaining the inner list first and wrapping the result with the outer list; so the
handler bound for a route of a group with list `P` over a route with list `U` is the
route's own chained handler wrapped with `P`. -/
theorem C20_Chain_of_append (h : Handler) (A B : List Middleware) :
    Chain h (A ++ B) = Chain (Chain h B) A
      ∧ ∀ (S : Type) (R : Routable S) (s : S) (i : Nat),
          ((Use (some R) A s).1[i]?).map (fun rt => Chain rt.Handler rt.Use)
            = ((R s).1[i]?).map (fun rt => Chain (Chain rt.Handler rt.Use) A) := by
  refine ⟨Chain_append h A B, ?_⟩
  intro S R s i
  rw [Use_some]
  simp [Chain_append, Function.comp_def]

/-! ## ServeFileContents: the designated file -/

theorem missing_trace {σ : Type} (w : ResponseWriter σ) (s : σ) (file : String) :
    (ServeFileContents.missing file).trace w s
      = Op.WriteHeader StatusNotFound
          :: Op.Write (bytes (file ++ " not found"))
              (w.Write (bytes (file ++ " not found")) (w.WriteHeader StatusNotFound s)).1
          :: (match (w.Write (bytes (file ++ " not found")) (w.WriteHeader StatusNotFound s)).1.2 with
              | some err =>
                  [Op.Log (LogRecord.mk .Error "error writing missing file response"
                    [("file", file), ("err", err)])]
              | none => []) := by
  simp only [ServeFileContents.missing, Prog.trace]
  cases (w.Write (bytes (file ++ " not found")) (w.WriteHeader StatusNotFound s)).1.2 <;> rfl

theorem missing_on_recorder (file : String) :
    ((ServeFileContents.missing file).run recorder NewRecorder).2.Code = 404
      ∧ ((ServeFileContents.missing file).run recorder NewRecorder).2.Body
          = bytes (file ++ " not found") := by
  constructor <;> rfl

theorem ServeFileContents_open_fails {σ : Type} (w : ResponseWriter σ) (s : σ)
    (ServeContent : Request → String → Int → File → Prog Unit) (file : String)
    (files : FileSystem) (r : Request) (err : Error)
    (hAccept : strings.Contains (r.Header.Get "Accept") "text/html" = true)
    (hopen : files.Open file = .error err) :
    (ServeFileContents ServeContent file files r).trace w s
        = [Op.Open file] ++ (ServeFileContents.missing file).trace w s
      ∧ (ServeFileContents ServeContent file files r).run w s
        = (ServeFileContents.missing file).run w s := by
  simp [ServeFileContents, hAccept, Prog.trace, Prog.run, hopen]

theorem ServeFileContents_stat_fails {σ : Type} (w : ResponseWriter σ) (s : σ)
    (ServeContent : Request → String → Int → File → Prog Unit) (file : String)
    (files : FileSystem) (r : Request) (index : File) (err : Error)
    (hAccept : strings.Contains (r.Header.Get "Accept") "text/html" = true)
    (hopen : files.Open file = .ok index) (hstat : index.Stat = .error err) :
    (ServeFileContents ServeContent file files r).trace w s
        = [Op.Open file, Op.Stat] ++ (ServeFileContents.missing file).trace w s
      ∧ (ServeFileContents ServeContent file files r).run w s
        = (ServeFileContents.missing file).run w s := by
  simp [ServeFileContents, hAccept, Prog.trace, Prog.run, hopen, hstat]

/-- The successful path of `ServeFileContents`: `Open`, `Stat`, the content type, then
the calls of the content streamer. -/
theorem ServeFileContents_found {σ : Type} (w : ResponseWriter σ) (s : σ)
    (ServeContent : Request → String → Int → File → Prog Unit) (file : String)
    (files : FileSystem) (r : Request) (index : File) (fi : FileInfo)
    (hAccept : strings.Contains (r.Header.Get "Accept") "text/html" = true)
    (hopen : files.Open file = .ok index) (hstat : index.Stat = .ok fi) :
    (ServeFileContents ServeContent file files r).trace w s
        = [Op.Open file, Op.Stat, Op.HeaderSet "Content-Type" "text/html; charset=utf-8"]
            ++ (ServeContent r fi.Name fi.ModTime index).trace w
                (w.HeaderSet "Content-Type" "text/html; charset=utf-8" s)
      ∧ (ServeFileContents ServeContent file files r).run w s
        = (ServeContent r fi.Name fi.ModTime index).run w
            (w.HeaderSet "Content-Type" "text/html; charset=utf-8" s) := by
  simp [ServeFileContents, hAccept, Prog.trace, Prog.run, hopen, hstat]

/-- C16: for a request whose `Accept` header contains "text/html", when `Open` of the
designated file fails, or `Open` succeeds and `Stat` on the opened file fails, the
handler of `ServeFileContents` calls `WriteHeader(404)` and writes the file's name
followed by " not found" (logging when that write fails); on the recorder the status is
404 and the body is that text; the content streamer is not called: the run is the same
whatever the streamer is. -/
theorem C16_ServeFileContents_missing_file
    (ServeContent : Request → String → Int → File → Prog Unit) (file : String)
    (files : FileSystem) (r : Request)
    (hAccept : strings.Contains (r.Header.Get "Accept") "text/html" = true)
    (hfail : (∃ err, files.Open file = .error err)
      ∨ (∃ index err, files.Open file = .ok index ∧ index.Stat = .error err)) :
    (∀ (σ : Type) (w : ResponseWriter σ) (s : σ),
        ∃ opened, (opened = [Op.Open file] ∨ opened = [Op.Open file, Op.Stat])
          ∧ (ServeFileContents ServeContent file files r).trace w s
            = opened ++ Op.WriteHeader StatusNotFound
                :: Op.Write (bytes (file ++ " not found"))
                    (w.Write (bytes (file ++ " not found")) (w.WriteHeader StatusNotFound s)).1
                :: (match (w.Write (bytes (file ++ " not found"))
                      (w.WriteHeader StatusNotFound s)).1.2 with
                    | some err =>
                        [Op.Log (LogRecord.mk .Error "error writing missing file response"
                          [("file", file), ("err", err)])]
                    | none => []))
      ∧ ((ServeFileContents ServeContent file files r).run recorder NewRecorder).2.Code = 404
      ∧ ((ServeFileContents ServeContent file files r).run recorder NewRecorder).2.Body
          = bytes (file ++ " not found")
      ∧ (∀ (ServeContent' : Request → String → Int → File → Prog Unit) (σ : Type)
          (w : ResponseWriter σ) (s : σ),
          (ServeFileContents ServeContent' file files r).trace w s
              = (ServeFileContents ServeContent file files r).trace w s
            ∧ (ServeFileContents ServeContent' file files r).run w s
              = (ServeFileContents ServeContent file files r).run w s) := by
  rcases hfail with ⟨err, hopen⟩ | ⟨index, err, hopen, hstat⟩
  · have h := fun (SC : Request → String → Int → File → Prog Unit) (σ : Type)
        (w : ResponseWriter σ) (s : σ) =>
      ServeFileContents_open_fails w s SC file files r err hAccept hopen
    refine ⟨fun σ w s => ⟨[Op.Open file], Or.inl rfl, ?_⟩, ?_, ?_, ?_⟩
    · rw [(h ServeContent σ w s).1, missing_trace]
    · rw [(h ServeContent _ recorder NewRecorder).2]; exact (missing_on_recorder file).1
    · rw [(h ServeContent _ recorder NewRecorder).2]; exact (missing_on_recorder file).2
    · intro SC σ w s
      rw [(h SC σ w s).1, (h SC σ w s).2, (h ServeContent σ w s).1, (h ServeContent σ w s).2]
      exact ⟨rfl, rfl⟩
  · have h := fun (SC : Request → String → Int → File → Prog Unit) (σ : Type)
        (w : ResponseWriter σ) (s : σ) =>
      ServeFileContents_stat_fails w s SC file files r index err hAccept hopen hstat
    refine ⟨fun σ w s => ⟨[Op.Open file, Op.Stat], Or.inr rfl, ?_⟩, ?_, ?_, ?_⟩
    · rw [(h ServeContent σ w s).1, missing_trace]
    · rw [(h ServeContent _ recorder NewRecorder).2]; exact (missing_on_recorder file).1
    · rw [(h ServeContent _ recorder NewRecorder).2]; exact (missing_on_recorder file).2
    · intro SC σ w s
      rw [(h SC σ w s).1, (h SC σ w s).2, (h ServeContent σ w s).1, (h ServeContent σ w s).2]
      exact ⟨rfl, rfl⟩

/-- C16 at a file system without the file, and at one whose file cannot be inspected. -/
theorem C16_ServeFileContents_missing_file_witness :
    strings.Contains (testRequestHTML.Header.Get "Accept") "text/html" = true
      ∧ ((∃ err, emptyFiles.Open "index.html" = .error err)
          ∨ (∃ index err, emptyFiles.Open "index.html" = .ok index ∧ index.Stat = .error err))
      ∧ ((ServeFileContents plainServeContent "index.html" emptyFiles testRequestHTML).run
          recorder NewRecorder).2.Body = bytes ("index.html" ++ " not found")
      ∧ ((ServeFileContents plainServeContent "index.html" brokenStatFiles testRequestHTML).run
          recorder NewRecorder).2.Code = 404
      ∧ (ServeFileContents plainServeContent "index.html" brokenStatFiles testRequestHTML).trace
          recorder NewRecorder
        = [Op.Open "index.html", Op.Stat, Op.WriteHeader StatusNotFound,
            Op.Write (bytes "index.html not found") (20, none)] :=
  ⟨by decide, Or.inl ⟨_, rfl⟩,
   (C16_ServeFileContents_missing_file plainServeContent "index.html" emptyFiles
      testRequestHTML (by decide) (Or.inl ⟨_, rfl⟩)).2.2.1,
   (C16_ServeFileContents_missing_file plainServeContent "index.html" brokenStatFiles
      testRequestHTML (by decide) (Or.inr ⟨_, _, rfl, rfl⟩)).2.1,
   by decide⟩

/-- C17: for a request whose `Accept` header contains "text/html", when the designated
file opens and `Stat` succeeds, the handler of `ServeFileContents` calls `Open`, `Stat`,
sets `Content-Type` to "text/html; charset=utf-8" and then does what the content streamer
does for the request, the file's name, its modification time and the opened file: it
makes no `WriteHeader` call of its own.  With a streamer that answers a plain `GET` by
writing the content, the recorder ends with status 200, that content type and the
file's contents as the body. -/
theorem C17_ServeFileContents_serves_file
    (ServeContent : Request → String → Int → File → Prog Unit) (file : String)
    (files : FileSystem) (r : Request) (index : File) (fi : FileInfo)
    (hAccept : strings.Contains (r.Header.Get "Accept") "text/html" = true)
    (hopen : files.Open file = .ok index) (hstat : index.Stat = .ok fi) :
    (∀ (σ : Type) (w : ResponseWriter σ) (s : σ),
        (ServeFileContents ServeContent file files r).trace w s
            = [Op.Open file, Op.Stat, Op.HeaderSet "Content-Type" "text/html; charset=utf-8"]
                ++ (ServeContent r fi.Name fi.ModTime index).trace w
                    (w.HeaderSet "Content-Type" "text/html; charset=utf-8" s)
          ∧ (ServeFileContents ServeContent file files r).run w s
            = (ServeContent r fi.Name fi.ModTime index).run w
                (w.HeaderSet "Content-Type" "text/html; charset=utf-8" s))
      ∧ ((ServeFileContents plainServeContent file files r).run recorder NewRecorder).2.Code
          = 200
      ∧ ((ServeFileContents plainServeContent file files r).run recorder
          NewRecorder).2.HeaderMap.Get "Content-Type" = "text/html; charset=utf-8"
      ∧ ((ServeFileContents plainServeContent file files r).run recorder NewRecorder).2.Body
          = index.Data
      ∧ Op.WriteHeader StatusNotFound
          ∉ (ServeFileContents plainServeContent file files r).trace recorder NewRecorder := by
  have hplain := ServeFileContents_found recorder NewRecorder plainServeContent file files r
    index fi hAccept hopen hstat
  refine ⟨fun σ w s =>
    ServeFileContents_found w s ServeContent file files r index fi hAccept hopen hstat,
    ?_, ?_, ?_, ?_⟩
  · rw [hplain.2]; rfl
  · rw [hplain.2]; rfl
  · rw [hplain.2]
    simp [plainServeContent, Prog.run, recorder, ResponseRecorder.Write, NewRecorder,
      ResponseRecorder.WriteHeader]
  · rw [hplain.1]
    simp [plainServeContent, Prog.trace]

/-- C17 at the test `TestServeFileContentsHTML`: status 200 and the body of `index.html`. -/
theorem C17_ServeFileContents_serves_file_witness :
    strings.Contains (testRequestHTML.Header.Get "Accept") "text/html" = true
      ∧ ((ServeFileContents plainServeContent "index.html" testFiles testRequestHTML).run
          recorder NewRecorder).2.Code = 200
      ∧ ((ServeFileContents plainServeContent "index.html" testFiles testRequestHTML).run
          recorder NewRecorder).2.Body = bytes "<html>ok</html>" :=
  ⟨by decide,
   (C17_ServeFileContents_serves_file plainServeContent "index.html" testFiles
      testRequestHTML
      { Stat := .ok { Name := "index.html", ModTime := 0 }, Data := bytes "<html>ok</html>" }
      { Name := "index.html", ModTime := 0 } (by decide) rfl rfl).2.1,
   (C17_ServeFileContents_serves_file plainServeContent "index.html" testFiles
      testRequestHTML
      { Stat := .ok { Name := "index.html", ModTime := 0 }, Data := bytes "<html>ok</html>" }
      { Name := "index.html", ModTime := 0 } (by decide) rfl rfl).2.2.2.1⟩

/-! ## Intercept404: the flag -/

/-- C19: for every run of the primary on the hooked writer, the flag is set when the
primary returns exactly when the run calls `WriteHeader(404)` at least once; the fallback
runs once, after the primary and on the real sink, when the flag is set, and not at all
otherwise; and no `WriteHeader` or `Write`, and no run of a handler body, clears a flag
that is set. -/
theorem C19_fallback_once_iff_404 {σ : Type} (w : ResponseWriter σ) (s : σ)
    (primary fallback : Handler) (r : Request) :
    ((((primary r).onHooked { got404 := false }).run w s).1.2.got404 = true
        ↔ Op.WriteHeader StatusNotFound
            ∈ (primary r).trace (hooked w) (s, { got404 := false }))
      ∧ (Op.WriteHeader StatusNotFound
            ∈ (primary r).trace (hooked w) (s, { got404 := false }) →
          (Intercept404 primary fallback r).trace w s
              = ((primary r).onHooked { got404 := false }).trace w s
                  ++ (fallback r).trace w (((primary r).onHooked { got404 := false }).run w s).2
            ∧ (Intercept404 primary fallback r).run w s
              = (fallback r).run w (((primary r).onHooked { got404 := false }).run w s).2)
      ∧ (Op.WriteHeader StatusNotFound
            ∉ (primary r).trace (hooked w) (s, { got404 := false }) →
          (Intercept404 primary fallback r).trace w s
              = ((primary r).onHooked { got404 := false }).trace w s
            ∧ (Intercept404 primary fallback r).run w s
              = ((), (((primary r).onHooked { got404 := false }).run w s).2))
      ∧ (∀ (status : Int) (p : Bytes) (t : σ),
          ((hooked w).WriteHeader status (t, { got404 := true })).2.got404 = true
            ∧ ((hooked w).Write p (t, { got404 := true })).2.2.got404 = true)
      ∧ (∀ (α : Type) (a : Prog α) (t : σ),
          (a.run (hooked w) (t, { got404 := true })).2.2.got404 = true) := by
  have hflag : (((primary r).onHooked { got404 := false }).run w s).1.2.got404
      = ((primary r).trace (hooked w) (s, { got404 := false })).any Op.is404 := by
    rw [Prog.onHooked_run, hooked_flag]
    simp
  refine ⟨?_, ?_, ?_, ?_, ?_⟩
  · rw [hflag]
    constructor
    · intro h
      obtain ⟨o, ho, h4⟩ := List.any_eq_true.mp h
      exact (Op.is404_iff o).mp h4 ▸ ho
    · exact any_is404_eq_true _
  · intro h
    have ht := any_is404_eq_true _ h
    rw [Intercept404_trace, Intercept404_run, hflag, ht]
    exact ⟨rfl, rfl⟩
  · intro h
    have hf := any_is404_eq_false _ h
    rw [Intercept404_trace, Intercept404_run, hflag, hf]
    simp
  · intro status p t
    rw [hooked_WriteHeader, hooked_Write]
    constructor
    · split <;> rfl
    · rfl
  · intro α a t
    rw [hooked_flag]
    rfl

/-- C19 at the primaries of the tests: the one that calls `WriteHeader(404)` gets the
fallback's single write after it, the one that does not gets no fallback. -/
theorem C19_fallback_once_iff_404_witness :
    Op.WriteHeader StatusNotFound
        ∈ (testPrimary404 testRequest).trace (hooked recorder) (NewRecorder, { got404 := false })
      ∧ (Intercept404 testPrimary404 testFallbackFlag testRequest).trace recorder NewRecorder
          = ((testPrimary404 testRequest).onHooked { got404 := false }).trace recorder NewRecorder
              ++ (testFallbackFlag testRequest).trace recorder
                  (((testPrimary404 testRequest).onHooked { got404 := false }).run recorder
                    NewRecorder).2
      ∧ (Intercept404 testPrimary404 testFallbackFlag testRequest).trace recorder NewRecorder
          = [Op.Log (LogRecord.mk .Debug "fallbackCalled" [])]
      ∧ Op.WriteHeader StatusNotFound
          ∉ (testPrimaryOk testRequest).trace (hooked recorder) (NewRecorder, { got404 := false })
      ∧ (Intercept404 testPrimaryOk testFallbackFlag testRequest).trace recorder NewRecorder
          = ((testPrimaryOk testRequest).onHooked { got404 := false }).trace recorder NewRecorder :=
  ⟨by decide,
   ((C19_fallback_once_iff_404 recorder NewRecorder testPrimary404 testFallbackFlag
      testRequest).2.1 (by decide)).1,
   by decide, by decide,
   ((C19_fallback_once_iff_404 recorder NewRecorder testPrimaryOk testFallbackFlag
      testRequest).2.2.1 (by decide)).1⟩

/-! ## Slices in memory -/

theorem writeAt_length {α : Type} (arr : List α) (i : Nat) (xs : List α)
    (h : i + xs.length ≤ arr.length) : (writeAt arr i xs).length = arr.length := by
  simp only [writeAt, List.length_append, List.length_take, List.length_drop]
  omega

theorem writeAt_take {α : Type} (arr : List α) (i : Nat) (xs : List α) (h : i ≤ arr.length) :
    (writeAt arr i xs).take i = arr.take i := by
  have hlen : (arr.take i).length = i := by simp [h]
  rw [writeAt, List.append_assoc, List.take_append_of_le_length (by omega)]
  rw [List.take_of_length_le (by omega)]

theorem writeAt_take_add {α : Type} (arr : List α) (i : Nat) (xs : List α)
    (h : i ≤ arr.length) : (writeAt arr i xs).take (i + xs.length) = arr.take i ++ xs := by
  have hlen : (arr.take i ++ xs).length = i + xs.length := by simp [h]
  rw [writeAt, List.take_append_of_le_length (by omega)]
  rw [List.take_of_length_le (by omega)]

theorem readMws_le (m : Memory) (s : Slice) : (m.readMws s).length ≤ s.len := by
  simp [Memory.readMws, List.length_take]

/-- The three statements that build `use` in the loop body: one array is allocated, it
receives the elements of the group's list followed by the route's own, and no other array
changes. -/
theorem newUse_spec (m : Memory) (P U : Slice) (hP : P.ptr < m.next) (hU : U.ptr < m.next) :
    (appendMws
        (appendMws (makeMws (P.len + U.len) m).1
          ((makeMws (P.len + U.len) m).2.readMws P) (makeMws (P.len + U.len) m).2).1
        ((appendMws (makeMws (P.len + U.len) m).1
          ((makeMws (P.len + U.len) m).2.readMws P) (makeMws (P.len + U.len) m).2).2.readMws U)
        (appendMws (makeMws (P.len + U.len) m).1
          ((makeMws (P.len + U.len) m).2.readMws P) (makeMws (P.len + U.len) m).2).2)
      = ({ ptr := m.next, off := 0, len := (m.readMws P).length + (m.readMws U).length,
           cap := P.len + U.len },
         { mws := fun a =>
             if a = m.next then
               writeAt (writeAt (List.replicate (P.len + U.len) none) 0 (m.readMws P))
                 (m.readMws P).length (m.readMws U)
             else m.mws a
           routes := m.routes
           next := m.next + 1 }) := by
  have hPne : P.ptr ≠ m.next := by omega
  have hUne : U.ptr ≠ m.next := by omega
  have h1 : (makeMws (P.len + U.len) m).2.readMws P = m.readMws P := by
    simp [makeMws, Memory.readMws, hPne]
  have hxs := readMws_le m P
  have hys := readMws_le m U
  rw [h1]
  have h2 : appendMws (makeMws (P.len + U.len) m).1 (m.readMws P) (makeMws (P.len + U.len) m).2
      = ({ ptr := m.next, off := 0, len := (m.readMws P).length, cap := P.len + U.len },
         { mws := fun a =>
             if a = m.next then writeAt (List.replicate (P.len + U.len) none) 0 (m.readMws P)
             else m.mws a
           routes := m.routes
           next := m.next + 1 }) := by
    have hc : 0 + (m.readMws P).length ≤ P.len + U.len := by omega
    simp only [appendMws, makeMws, hc, if_true]
    refine Prod.ext (by simp) ?_
    simp only
    congr 1
    funext a
    by_cases ha : a = m.next <;> simp [ha]
  rw [h2]
  have h3 : Memory.readMws
      { mws := fun a =>
          if a = m.next then writeAt (List.replicate (P.len + U.len) none) 0 (m.readMws P)
          else m.mws a
        routes := m.routes
        next := m.next + 1 } U = m.readMws U := by
    simp [Memory.readMws, hUne]
  rw [h3]
  have hc : (m.readMws P).length + (m.readMws U).length ≤ P.len + U.len := by omega
  simp only [appendMws, hc, if_true]
  refine Prod.ext rfl ?_
  simp only
  congr 1
  funext a
  by_cases ha : a = m.next <;> simp [ha]

theorem readMws_of_agree (m0 m : Memory) (s : Slice) (hs : s.ptr < m0.next)
    (hagree : ∀ a, a < m0.next → m.mws a = m0.mws a ∧ m.routes a = m0.routes a) :
    m.readMws s = m0.readMws s := by
  simp [Memory.readMws, (hagree s.ptr hs).1]

theorem readRoutes_of_agree (m0 m : Memory) (s : Slice) (hs : s.ptr < m0.next)
    (hagree : ∀ a, a < m0.next → m.mws a = m0.mws a ∧ m.routes a = m0.routes a) :
    m.readRoutes s = m0.readRoutes s := by
  simp [Memory.readRoutes, (hagree s.ptr hs).2]

theorem readRoutes_length (m : Memory) (s : Slice)
    (h : s.off + s.len ≤ (m.routes s.ptr).length) : (m.readRoutes s).length = s.len := by
  simp [Memory.readRoutes, List.length_take, List.length_drop]
  omega

theorem readRoutes_getElem (m : Memory) (s : Slice) (k : Nat) (hk : k < s.len)
    (h : s.off + s.len ≤ (m.routes s.ptr).length) :
    (m.routes s.ptr).getD (s.off + k) RouteCell.zero
        ∈ m.readRoutes s
      ∧ (m.readRoutes s).take (k + 1)
        = (m.readRoutes s).take k ++ [(m.routes s.ptr).getD (s.off + k) RouteCell.zero] := by
  have hlen := readRoutes_length m s h
  have hk' : k < (m.readRoutes s).length := by omega
  have hget : (m.readRoutes s)[k] = (m.routes s.ptr).getD (s.off + k) RouteCell.zero := by
    have hb : s.off + k < (m.routes s.ptr).length := by omega
    simp [Memory.readRoutes, List.getD, List.getElem?_eq_getElem hb]
  constructor
  · rw [← hget]; exact List.getElem_mem _
  · rw [← hget, List.take_succ, List.getElem?_eq_getElem hk']
    rfl

theorem body_eq (g : routeGroupMem) (m0 : Memory) (rs : Slice) (o n k : Nat)
    (st : Slice × Memory) (hrs : rs.validRoutes m0) (hP : g.use.validMws m0)
    (hn : n = rs.len) (hk : k < n) (hinv : g.loopInv m0 rs o n k st) :
    g.body rs st k
      = ({ ptr := o, off := 0, len := k + 1, cap := n },
         { mws := fun a =>
             if a = st.2.next then
               writeAt (writeAt (List.replicate
                   (g.use.len + ((m0.routes rs.ptr).getD (rs.off + k) RouteCell.zero).Use.len)
                   none) 0 (m0.readMws g.use))
                 (m0.readMws g.use).length
                 (m0.readMws ((m0.routes rs.ptr).getD (rs.off + k) RouteCell.zero).Use)
             else st.2.mws a
           routes := fun a =>
             if a = o then
               writeAt (st.2.routes a) k
                 [{ (m0.routes rs.ptr).getD (rs.off + k) RouteCell.zero with
                    Use := { ptr := st.2.next, off := 0,
                             len := (m0.readMws g.use).length
                               + (m0.readMws
                                   ((m0.routes rs.ptr).getD (rs.off + k) RouteCell.zero).Use).length,
                             cap := g.use.len
                               + ((m0.routes rs.ptr).getD (rs.off + k) RouteCell.zero).Use.len } }]
             else st.2.routes a
           next := st.2.next + 1 }) := by
  obtain ⟨hout, hlen, hbase, ho, hagree, hptr, hdeep⟩ := hinv
  obtain ⟨hrsptr, hrsb, hrsuse⟩ := hrs
  have hroutes_eq : st.2.routes rs.ptr = m0.routes rs.ptr := (hagree _ hrsptr).2
  obtain ⟨hcmem, htake⟩ := readRoutes_getElem m0 rs k (by omega) hrsb
  have hcU := hrsuse _ hcmem
  have hPm : g.use.ptr < st.2.next := by have := hP.1; omega
  have hUm : ((m0.routes rs.ptr).getD (rs.off + k) RouteCell.zero).Use.ptr < st.2.next := by
    have := hcU.1; omega
  have hnew := newUse_spec st.2 g.use
    ((m0.routes rs.ptr).getD (rs.off + k) RouteCell.zero).Use hPm hUm
  have hxP : st.2.readMws g.use = m0.readMws g.use :=
    readMws_of_agree m0 st.2 g.use hP.1 hagree
  have hxU : st.2.readMws ((m0.routes rs.ptr).getD (rs.off + k) RouteCell.zero).Use
      = m0.readMws ((m0.routes rs.ptr).getD (rs.off + k) RouteCell.zero).Use :=
    readMws_of_agree m0 st.2 _ hcU.1 hagree
  rw [hxP, hxU] at hnew
  simp only [routeGroupMem.body, hroutes_eq, hnew, hout]
  have hc : k + [({ (m0.routes rs.ptr).getD (rs.off + k) RouteCell.zero with
      Use := { ptr := st.2.next, off := 0,
               len := (m0.readMws g.use).length
                 + (m0.readMws
                     ((m0.routes rs.ptr).getD (rs.off + k) RouteCell.zero).Use).length,
               cap := g.use.len
                 + ((m0.routes rs.ptr).getD (rs.off + k) RouteCell.zero).Use.len } } :
        RouteCell)].length ≤ n := by
    simp; omega
  simp only [appendRoutes, hc, if_true]
  simp

theorem newUse_read (xs ys : List (Option Middleware)) (n : Nat)
    (h : xs.length + ys.length ≤ n) :
    (writeAt (writeAt (List.replicate n none) 0 xs) xs.length ys).take
        (xs.length + ys.length) = xs ++ ys := by
  have h1 : (writeAt (List.replicate n (none : Option Middleware)) 0 xs).length = n := by
    rw [writeAt_length _ _ _ (by simp; omega)]
    simp
  have h2 : (writeAt (List.replicate n (none : Option Middleware)) 0 xs).take xs.length = xs := by
    have := writeAt_take_add (List.replicate n (none : Option Middleware)) 0 xs (by simp)
    simpa using this
  rw [writeAt_take_add _ _ _ (by omega), h2]

theorem readMws_fresh (m : Memory) (p l c : Nat) :
    m.readMws { ptr := p, off := 0, len := l, cap := c } = (m.mws p).take l := by
  simp [Memory.readMws]

theorem body_preserves (g : routeGroupMem) (m0 : Memory) (rs : Slice) (o n k : Nat)
    (st : Slice × Memory) (hrs : rs.validRoutes m0) (hP : g.use.validMws m0)
    (hn : n = rs.len) (hk : k < n) (hinv : g.loopInv m0 rs o n k st) :
    g.loopInv m0 rs o n (k + 1) (g.body rs st k) := by
  rw [body_eq g m0 rs o n k st hrs hP hn hk hinv]
  obtain ⟨hout, hlen, hbase, ho, hagree, hptr, hdeep⟩ := hinv
  obtain ⟨hrsptr, hrsb, hrsuse⟩ := hrs
  obtain ⟨hcmem, htake⟩ := readRoutes_getElem m0 rs k (by omega) hrsb
  have hxs := readMws_le m0 g.use
  have hys := readMws_le m0 ((m0.routes rs.ptr).getD (rs.off + k) RouteCell.zero).Use
  have hk' : k ≤ (st.2.routes o).length := by omega
  refine ⟨rfl, ?_, hbase, ?_, ?_, ?_, ?_⟩
  · simp only [if_true]
    rw [writeAt_length _ _ _ (by simp; omega)]
    exact hlen
  · simp only; omega
  · intro a ha
    have h1 : a ≠ st.2.next := by omega
    have h2 : a ≠ o := by omega
    simp only [h1, h2, if_false]
    exact hagree a ha
  · simp only [if_true]
    have := writeAt_take_add (st.2.routes o) k
      [({ (m0.routes rs.ptr).getD (rs.off + k) RouteCell.zero with
        Use := { ptr := st.2.next, off := 0,
                 len := (m0.readMws g.use).length
                   + (m0.readMws
                       ((m0.routes rs.ptr).getD (rs.off + k) RouteCell.zero).Use).length,
                 cap := g.use.len
                   + ((m0.routes rs.ptr).getD (rs.off + k) RouteCell.zero).Use.len } } :
          RouteCell)] hk'
    simp only [List.length_singleton] at this
    rw [this]
    intro c hc
    rcases List.mem_append.mp hc with hc | hc
    · have := hptr c hc; omega
    · simp only [List.mem_singleton] at hc
      subst hc
      simp
  · simp only [if_true]
    have := writeAt_take_add (st.2.routes o) k
      [({ (m0.routes rs.ptr).getD (rs.off + k) RouteCell.zero with
        Use := { ptr := st.2.next, off := 0,
                 len := (m0.readMws g.use).length
                   + (m0.readMws
                       ((m0.routes rs.ptr).getD (rs.off + k) RouteCell.zero).Use).length,
                 cap := g.use.len
                   + ((m0.routes rs.ptr).getD (rs.off + k) RouteCell.zero).Use.len } } :
          RouteCell)] hk'
    simp only [List.length_singleton] at this
    rw [this, htake, List.map_append, List.map_append, ← hdeep]
    congr 1
    · apply List.map_congr_left
      intro c hc
      have hne : c.Use.ptr ≠ st.2.next := by have := hptr c hc; omega
      simp [Memory.readMws, hne]
    · simp only [List.map_cons, List.map_nil, readMws_fresh, if_true]
      rw [newUse_read _ _ _ (by omega)]

theorem loop_invariant (g : routeGroupMem) (m0 : Memory) (rs : Slice)
    (hrs : rs.validRoutes m0) (hP : g.use.validMws m0) (k : Nat) (hk : k ≤ rs.len) :
    g.loopInv m0 rs m0.next rs.len k
      ((List.range k).foldl (g.body rs) (makeRoutes rs.len m0)) := by
  induction k with
  | zero =>
    refine ⟨rfl, ?_, Nat.le_refl _, ?_, ?_, ?_, ?_⟩
    · simp [makeRoutes]
    · simp [makeRoutes]
    · intro a ha
      have h1 : a ≠ m0.next := by omega
      simp [makeRoutes, h1]
    · simp
    · simp
  | succ k ih =>
    rw [List.range_succ, List.foldl_append, List.foldl_cons, List.foldl_nil]
    exact body_preserves g m0 rs m0.next rs.len k _ hrs hP rfl (by omega) (ih (by omega))

/-- What the group's `Routes()` over a static base does to memory and what it returns:
memory only grows, the arrays allocated before the call are unchanged, and the routes
returned are the routes of the base, each with the group's list before its own. -/
theorem routeGroupMem_Routes_spec (rs P : Slice) (m0 : Memory) (hrs : rs.validRoutes m0)
    (hP : P.validMws m0) :
    m0.next ≤ (routeGroupMem.Routes
        { base := some (staticRoutes.RoutesMem rs), use := P } m0).2.next
      ∧ (∀ a, a < m0.next →
          (routeGroupMem.Routes
              { base := some (staticRoutes.RoutesMem rs), use := P } m0).2.mws a = m0.mws a
            ∧ (routeGroupMem.Routes
              { base := some (staticRoutes.RoutesMem rs), use := P } m0).2.routes a
                = m0.routes a)
      ∧ (routeGroupMem.Routes
            { base := some (staticRoutes.RoutesMem rs), use := P } m0).2.readDeep
          (routeGroupMem.Routes
            { base := some (staticRoutes.RoutesMem rs), use := P } m0).1
        = (m0.readRoutes rs).map
            (fun c => (c.Pattern, c.Handler, m0.readMws P ++ m0.readMws c.Use)) := by
  by_cases hearly : rs.len = 0 ∨ P.len = 0
  · have hr : routeGroupMem.Routes { base := some (staticRoutes.RoutesMem rs), use := P } m0
        = (rs, m0) := by
      simp [routeGroupMem.Routes, staticRoutes.RoutesMem, hearly]
    rw [hr]
    refine ⟨Nat.le_refl _, fun a _ => ⟨rfl, rfl⟩, ?_⟩
    rcases hearly with h | h
    · simp [Memory.readDeep, Memory.readRoutes, h]
    · have hnil : m0.readMws P = [] := by simp [Memory.readMws, h]
      simp [Memory.readDeep, hnil]
  · have hr : routeGroupMem.Routes { base := some (staticRoutes.RoutesMem rs), use := P } m0
        = (List.range rs.len).foldl
            (routeGroupMem.body { base := some (staticRoutes.RoutesMem rs), use := P } rs)
            (makeRoutes rs.len m0) := by
      simp [routeGroupMem.Routes, staticRoutes.RoutesMem, hearly]
    rw [hr]
    obtain ⟨hout, hlen, _, ho, hagree, _, hdeep⟩ :=
      loop_invariant { base := some (staticRoutes.RoutesMem rs), use := P } m0 rs hrs hP
        rs.len (Nat.le_refl _)
    refine ⟨by omega, hagree, ?_⟩
    have hfull : (m0.readRoutes rs).take rs.len = m0.readRoutes rs :=
      List.take_of_length_le (by rw [readRoutes_length m0 rs hrs.2.1])
    rw [hfull] at hdeep
    rw [← hdeep, Memory.readDeep, Memory.readRoutes, hout]
    simp

theorem readDeep_of_agree (m0 m : Memory) (rs : Slice) (hrs : rs.validRoutes m0)
    (hagree : ∀ a, a < m0.next → m.mws a = m0.mws a ∧ m.routes a = m0.routes a) :
    m.readDeep rs = m0.readDeep rs := by
  rw [Memory.readDeep, Memory.readDeep, readRoutes_of_agree m0 m rs hrs.1 hagree]
  apply List.map_congr_left
  intro c hc
  rw [readMws_of_agree m0 m c.Use (hrs.2.2 c hc).1 hagree]

theorem validRoutes_of_agree (m0 m : Memory) (rs : Slice) (hrs : rs.validRoutes m0)
    (hnext : m0.next ≤ m.next)
    (hagree : ∀ a, a < m0.next → m.mws a = m0.mws a ∧ m.routes a = m0.routes a) :
    rs.validRoutes m := by
  obtain ⟨h1, h2, h3⟩ := hrs
  refine ⟨by omega, ?_, ?_⟩
  · rw [(hagree _ h1).2]; exact h2
  · intro c hc
    rw [readRoutes_of_agree m0 m rs h1 hagree] at hc
    obtain ⟨hc1, hc2⟩ := h3 c hc
    refine ⟨by omega, ?_⟩
    rw [(hagree _ hc1).1]; exact hc2

theorem validMws_of_agree (m0 m : Memory) (s : Slice) (hs : s.validMws m0)
    (hnext : m0.next ≤ m.next)
    (hagree : ∀ a, a < m0.next → m.mws a = m0.mws a ∧ m.routes a = m0.routes a) :
    s.validMws m := by
  obtain ⟨h1, h2⟩ := hs
  refine ⟨by omega, ?_⟩
  rw [(hagree _ h1).1]; exact h2

/-- C14: over a memory of backing arrays, for a Routable built by `Routes(rs...)` (it
returns its own slice on every call) and a group list `P`, both lying in allocated
memory: `Use(R, P...).Routes()` changes no array that was allocated before the call, so
`R.Routes()` returns the same slice value before and after, with the same routes, each
with the same own middleware list; the routes the group returns are those of `R` with
the elements of `P` before each route's own; and a second call of the group's `Routes()`
returns routes equal to those of the first. -/
theorem C14_group_does_not_change_base (rs P : Slice) (m0 : Memory)
    (hrs : rs.validRoutes m0) (hP : P.validMws m0) :
    (∀ a, a < m0.next →
        (UseMem (some (staticRoutes.RoutesMem rs)) P m0).2.mws a = m0.mws a
          ∧ (UseMem (some (staticRoutes.RoutesMem rs)) P m0).2.routes a = m0.routes a)
      ∧ (staticRoutes.RoutesMem rs (UseMem (some (staticRoutes.RoutesMem rs)) P m0).2).1
          = (staticRoutes.RoutesMem rs m0).1
      ∧ (UseMem (some (staticRoutes.RoutesMem rs)) P m0).2.readDeep rs = m0.readDeep rs
      ∧ (UseMem (some (staticRoutes.RoutesMem rs)) P m0).2.readMws P = m0.readMws P
      ∧ (UseMem (some (staticRoutes.RoutesMem rs)) P m0).2.readDeep
            (UseMem (some (staticRoutes.RoutesMem rs)) P m0).1
          = (m0.readDeep rs).map (fun x => (x.1, x.2.1, m0.readMws P ++ x.2.2))
      ∧ (UseMem (some (staticRoutes.RoutesMem rs)) P
            (UseMem (some (staticRoutes.RoutesMem rs)) P m0).2).2.readDeep
          (UseMem (some (staticRoutes.RoutesMem rs)) P
            (UseMem (some (staticRoutes.RoutesMem rs)) P m0).2).1
          = (UseMem (some (staticRoutes.RoutesMem rs)) P m0).2.readDeep
              (UseMem (some (staticRoutes.RoutesMem rs)) P m0).1 := by
  simp only [UseMem]
  obtain ⟨hnext, hagree, hdeep⟩ := routeGroupMem_Routes_spec rs P m0 hrs hP
  have hrs1 := validRoutes_of_agree m0 _ rs hrs hnext hagree
  have hP1 := validMws_of_agree m0 _ P hP hnext hagree
  obtain ⟨_, _, hdeep2⟩ := routeGroupMem_Routes_spec rs P _ hrs1 hP1
  have hreadP := readMws_of_agree m0 _ P hP.1 hagree
  have hreadR := readRoutes_of_agree m0 _ rs hrs.1 hagree
  refine ⟨hagree, rfl, readDeep_of_agree m0 _ rs hrs hagree, hreadP, ?_, ?_⟩
  · rw [hdeep, Memory.readDeep, List.map_map]
    rfl
  · rw [hdeep2, hdeep, hreadP, hreadR]
    apply List.map_congr_left
    intro c hc
    rw [readMws_of_agree m0 _ c.Use (hrs.2.2 c hc).1 hagree]

/-- C14 at a memory with one route that has one middleware of its own, under a group
with one middleware: the group returns one route with two middleware, twice, and the
route of the base still has one. -/
theorem C14_group_does_not_change_base_witness :
    exampleRoutes.validRoutes exampleMemory
      ∧ exampleUse.validMws exampleMemory
      ∧ (UseMem (some (staticRoutes.RoutesMem exampleRoutes)) exampleUse
            exampleMemory).2.readDeep exampleRoutes
          = exampleMemory.readDeep exampleRoutes
      ∧ ((UseMem (some (staticRoutes.RoutesMem exampleRoutes)) exampleUse
            exampleMemory).2.readDeep
          (UseMem (some (staticRoutes.RoutesMem exampleRoutes)) exampleUse
            exampleMemory).1).map (fun x => (x.1, x.2.2.length)) = [("GET /", 2)]
      ∧ ((UseMem (some (staticRoutes.RoutesMem exampleRoutes)) exampleUse
            exampleMemory).2.readDeep exampleRoutes).map (fun x => (x.1, x.2.2.length))
          = [("GET /", 1)] :=
  ⟨by decide, by decide,
   (C14_group_does_not_change_base exampleRoutes exampleUse exampleMemory (by decide)
      (by decide)).2.2.1,
   by decide, by decide⟩

end httpx
